import Mathlib
/-!
# Verification of the marketplace transaction lifecycle engine

Shallow embedding of the escrow/marketplace backend handlers
(`checkout`, `getTransactionCredentials`, `adminResolveDispute`,
`adminProcessWithdrawal`, `createDispute`, `createListing`) over an
explicit persistent state (`MarketState`).

Modelling conventions:
* SQL `numeric` columns and JS numbers are modelled as exact rationals (`ℚ`);
  the reference implementation round-trips them through `parseFloat`/`toString`.
* Timestamps are rationals counting milliseconds (`Date.getTime()`).
* Each handler takes the current state and returns `Except String` of the
  result and the successor state; a thrown JS error is `Except.error` and, as
  in the source (mutations happen after all guard checks, or inside a rolled
  back DB transaction), leaves no partial state behind.
* A SQL `UPDATE ... WHERE id = x` is a `List.map` touching every row whose id
  matches; primary-key uniqueness is an explicit `Nodup` hypothesis where a
  proof needs it.
-/

namespace Market

/-- `user_role` enum of the users table. -/
inductive UserRole where
  | buyer | seller | admin
deriving DecidableEq, Repr

/-- `listing_status` enum: 'active', 'sold', 'removed', 'under_review'. -/
inductive ListingStatus where
  | active | sold | removed | under_review
deriving DecidableEq, Repr

/-- `transaction_status` enum. -/
inductive TransactionStatus where
  | pending | completed | disputed | refunded | cancelled
deriving DecidableEq, Repr

/-- `dispute_status` enum. -/
inductive DisputeStatus where
  | open | in_review | resolved | closed
deriving DecidableEq, Repr

/-- `withdrawal_status` enum. -/
inductive WithdrawalStatus where
  | pending | approved | rejected | completed
deriving DecidableEq, Repr

/-- The status union type accepted by `adminProcessWithdrawal`
(`'approved' | 'rejected' | 'completed'` — note `'pending'` is excluded). -/
inductive AdminWithdrawalStatus where
  | approved | rejected | completed
deriving DecidableEq, Repr

/-- The `withdrawal_status` value a processing call writes. -/
def AdminWithdrawalStatus.toStatus : AdminWithdrawalStatus → WithdrawalStatus
  | .approved => .approved
  | .rejected => .rejected
  | .completed => .completed

/-- The `resolution` union type of `adminResolveDispute`. -/
inductive Resolution where
  | buyer_favor | seller_favor | partial_refund
deriving DecidableEq, Repr

/-- A row of `usersTable` (fields relevant to the lifecycle engine). -/
structure UserRec where
  id : Nat
  role : UserRole
  is_verified : Bool
  balance : ℚ
  created_at : ℚ
  updated_at : Option ℚ
deriving DecidableEq, Repr

/-- A row of `listingsTable`. -/
structure ListingRec where
  id : Nat
  seller_id : Nat
  title : String
  description : String
  platform : String
  category : String
  price : ℚ
  follower_count : Option Nat
  account_age_months : Option Nat
  encrypted_credentials : String
  status : ListingStatus
  created_at : ℚ
  updated_at : Option ℚ
deriving DecidableEq, Repr

/-- A row of `cartItemsTable`. -/
structure CartItemRec where
  id : Nat
  buyer_id : Nat
  listing_id : Nat
  quantity : Nat
  added_at : ℚ
deriving DecidableEq, Repr

/-- A row of `transactionsTable`. -/
structure TransactionRec where
  id : Nat
  buyer_id : Nat
  seller_id : Nat
  listing_id : Nat
  amount : ℚ
  platform_fee : ℚ
  payment_method : String
  status : TransactionStatus
  escrow_release_date : Option ℚ
  credentials_delivered_at : Option ℚ
  created_at : ℚ
  updated_at : Option ℚ
deriving DecidableEq, Repr

/-- A row of `disputesTable`. -/
structure DisputeRec where
  id : Nat
  transaction_id : Nat
  buyer_id : Nat
  seller_id : Nat
  reason : String
  description : String
  status : DisputeStatus
  admin_notes : Option String
  resolved_at : Option ℚ
  created_at : ℚ
  updated_at : Option ℚ
deriving DecidableEq, Repr

/-- A row of `withdrawalRequestsTable` (this table has no `updated_at`
column; the stray `updated_at` key the handler puts in its update object has
no column to land in and is dropped). -/
structure WithdrawalRec where
  id : Nat
  seller_id : Nat
  amount : ℚ
  payment_method : String
  payment_details : String
  status : WithdrawalStatus
  admin_notes : Option String
  processed_at : Option ℚ
  created_at : ℚ
deriving DecidableEq, Repr

/-- The persistent stores the lifecycle engine reads and writes. -/
structure MarketState where
  users : List UserRec
  listings : List ListingRec
  cartItems : List CartItemRec
  transactions : List TransactionRec
  disputes : List DisputeRec
  withdrawals : List WithdrawalRec
deriving DecidableEq, Repr

/-- `UPDATE users SET balance = b, updated_at = now WHERE id = uid`. -/
def setBal (uid : Nat) (b : ℚ) (now : ℚ) (users : List UserRec) : List UserRec :=
  users.map fun u => if u.id = uid then { u with balance := b, updated_at := some now } else u

/-- Read-modify-write credit of a user's balance, as both `adminResolveDispute`
and `checkout` perform it: select the user's row, add `amt` to the parsed
balance, write it back.  A missing row makes the source dereference
`rows[0].balance` on `undefined` and throw. -/
def creditUser (uid : Nat) (amt : ℚ) (now : ℚ) (users : List UserRec) :
    Except String (List UserRec) :=
  match users.find? (fun u => u.id = uid) with
  | none => .error "user row not found"
  | some u => .ok (setBal uid (u.balance + amt) now users)

/-- The `switch (resolution)` block of `adminResolveDispute`: from the
transaction's `amount` and `platform_fee` and the optional `refundAmount`,
compute `(buyerRefund, sellerAmount)`, or reject an absent/out-of-range
refund amount for a partial refund. -/
def resolutionAmounts (res : Resolution) (amount fee : ℚ) (refundAmount : Option ℚ) :
    Except String (ℚ × ℚ) :=
  match res with
  | .buyer_favor => .ok (amount, 0)
  | .seller_favor => .ok (0, amount - fee)
  | .partial_refund =>
    match refundAmount with
    | none => .error "Invalid refund amount for partial refund"
    | some r =>
      if r < 0 ∨ r > amount then .error "Invalid refund amount for partial refund"
      else .ok (r, max 0 (amount - r - fee))

/-- The resolved version of a dispute row: `status = 'resolved'`, admin
notes stored, `resolved_at`/`updated_at` stamped. -/
def resolvedRow (d : DisputeRec) (adminNotes : String) (now : ℚ) : DisputeRec :=
  { d with status := .resolved, admin_notes := some adminNotes,
           resolved_at := some now, updated_at := some now }

/-- The transaction row update of a resolution: status `refunded` under
`buyer_favor`, else `completed`. -/
def resolvedTxnRow (res : Resolution) (now : ℚ) (t : TransactionRec) : TransactionRec :=
  { t with status := if res = .buyer_favor then .refunded else .completed,
           updated_at := some now }

/-- `adminResolveDispute(disputeId, resolution, adminNotes, refundAmount?)`.
Joins the dispute with its transaction (either row missing gives the null
outcome), rejects an already `resolved`/`closed` dispute, computes the
refund split via `resolutionAmounts`, then — inside one DB transaction —
marks the dispute resolved, sets the transaction's status (`refunded` for
`buyer_favor`, else `completed`), and credits buyer and/or seller balances
when their share is positive.  Returns the updated dispute row. -/
def adminResolveDispute (disputeId : Nat) (res : Resolution) (adminNotes : String)
    (refundAmount : Option ℚ) (now : ℚ) (st : MarketState) :
    Except String (Option DisputeRec × MarketState) :=
  match st.disputes.find? (fun d => d.id = disputeId) with
  | none => .ok (none, st)
  | some dispute =>
    match st.transactions.find? (fun t => t.id = dispute.transaction_id) with
    | none => .ok (none, st)
    | some txn =>
      if dispute.status = .resolved ∨ dispute.status = .closed then
        .error "Dispute is already resolved"
      else
        match resolutionAmounts res txn.amount txn.platform_fee refundAmount with
        | .error e => .error e
        | .ok (buyerRefund, sellerAmount) => do
          let disputes1 := st.disputes.map fun d =>
            if d.id = disputeId then resolvedRow d adminNotes now else d
          let transactions1 := st.transactions.map fun t =>
            if t.id = txn.id then resolvedTxnRow res now t else t
          let users1 ←
            if buyerRefund > 0 then creditUser txn.buyer_id buyerRefund now st.users
            else .ok st.users
          let users2 ←
            if sellerAmount > 0 then creditUser txn.seller_id sellerAmount now users1
            else .ok users1
          .ok (some (resolvedRow dispute adminNotes now),
               { st with disputes := disputes1, transactions := transactions1, users := users2 })

/-- The success-path update of `getTransactionCredentials`:
`UPDATE transactions SET credentials_delivered_at = now, updated_at = now
WHERE id = transactionId`. -/
def stampDelivered (transactionId : Nat) (now : ℚ) (st : MarketState) : MarketState :=
  { st with transactions := st.transactions.map fun t =>
      if t.id = transactionId then
        { t with credentials_delivered_at := some now, updated_at := some now }
      else t }

/-- `getTransactionCredentials(transactionId, buyerId)`: select the
transaction joined with its listing; return `null` when the row is missing,
the buyer differs, the status is not `completed`, or credentials were already
delivered; otherwise stamp `credentials_delivered_at`/`updated_at` and return
the listing's stored `encrypted_credentials` text. -/
def getTransactionCredentials (transactionId buyerId : Nat) (now : ℚ) (st : MarketState) :
    Option String × MarketState :=
  match st.transactions.find? (fun t => t.id = transactionId) with
  | none => (none, st)
  | some txn =>
    match st.listings.find? (fun l => l.id = txn.listing_id) with
    | none => (none, st)
    | some listing =>
      if txn.buyer_id ≠ buyerId then (none, st)
      else if txn.status ≠ .completed then (none, st)
      else if txn.credentials_delivered_at ≠ none then (none, st)
      else (some listing.encrypted_credentials, stampDelivered transactionId now st)

/-- UTF-8 bytes of one character (what `Buffer.from(string)` produces). -/
def charUtf8 (c : Char) : List Nat :=
  let n := c.toNat
  if n < 128 then [n]
  else if n < 2048 then [192 + n / 64, 128 + n % 64]
  else if n < 65536 then [224 + n / 4096, 128 + (n / 64) % 64, 128 + n % 64]
  else [240 + n / 262144, 128 + (n / 4096) % 64, 128 + (n / 64) % 64, 128 + n % 64]

/-- UTF-8 byte sequence of a string. -/
def strUtf8 (s : String) : List Nat :=
  (s.data.map charUtf8).flatten

/-- The base64 alphabet. -/
def base64Alphabet : List Char :=
  "ABCDEFGHIJKLMNOPQRSTUVWXYZabcdefghijklmnopqrstuvwxyz0123456789+/".data

/-- Character for a 6-bit group. -/
def base64Digit (n : Nat) : Char := base64Alphabet.getD n '?'

/-- Base64 encoding of a byte list, with `=` padding. -/
def base64Bytes : List Nat → List Char
  | [] => []
  | [a] => [base64Digit (a / 4), base64Digit (a % 4 * 16), '=', '=']
  | [a, b] => [base64Digit (a / 4), base64Digit (a % 4 * 16 + b / 16),
               base64Digit (b % 16 * 4), '=']
  | a :: b :: c :: rest =>
      base64Digit (a / 4) :: base64Digit (a % 4 * 16 + b / 16) ::
      base64Digit (b % 16 * 4 + c / 64) :: base64Digit (c % 64) :: base64Bytes rest

/-- `Buffer.from(s).toString('base64')` — the Credential Vault's reversible
encoding used by `createListing`. -/
def base64Encode (s : String) : String :=
  String.mk (base64Bytes (strUtf8 s))

/-- Input shape of `createListing`. -/
structure CreateListingInput where
  seller_id : Nat
  title : String
  description : String
  platform : String
  category : String
  price : ℚ
  follower_count : Option Nat
  account_age_months : Option Nat
  credentials : String
deriving DecidableEq, Repr

/-- `createListing(input)`: the seller must exist and be verified; the
credentials are stored base64-encoded; the new row starts `under_review`.
`nextId` is the serial id the insert allocates. -/
def createListing (input : CreateListingInput) (now : ℚ) (nextId : Nat) (st : MarketState) :
    Except String (ListingRec × MarketState) :=
  match st.users.find? (fun u => u.id = input.seller_id) with
  | none => .error "Seller not found"
  | some seller =>
    if ¬ seller.is_verified then .error "Seller must be verified to create listings"
    else
      let listing : ListingRec :=
        { id := nextId, seller_id := input.seller_id, title := input.title,
          description := input.description, platform := input.platform,
          category := input.category, price := input.price,
          follower_count := input.follower_count,
          account_age_months := input.account_age_months,
          encrypted_credentials := base64Encode input.credentials,
          status := .under_review, created_at := now, updated_at := none }
      .ok (listing, { st with listings := st.listings ++ [listing] })

/-- The row update `adminProcessWithdrawal` applies to the withdrawal
request: status is written unconditionally; `admin_notes` only when a
truthy (non-empty) note is supplied; `processed_at` only on `completed`. -/
def applyWithdrawalUpdate (w : WithdrawalRec) (status : AdminWithdrawalStatus)
    (adminNotes : Option String) (now : ℚ) : WithdrawalRec :=
  { w with
    status := status.toStatus,
    admin_notes := match adminNotes with
      | some s => if s = "" then w.admin_notes else some s
      | none => w.admin_notes,
    processed_at := if status = .completed then some now else w.processed_at }

/-- `adminProcessWithdrawal(withdrawalId, status, adminNotes?)`: null when the
request is missing; on `approved` from `pending`, look up the seller, fail on
insufficient balance (before any mutation), else debit; finally write the
requested status (and notes / `processed_at`) to the request row. -/
def adminProcessWithdrawal (withdrawalId : Nat) (status : AdminWithdrawalStatus)
    (adminNotes : Option String) (now : ℚ) (st : MarketState) :
    Except String (Option WithdrawalRec × MarketState) :=
  match st.withdrawals.find? (fun w => w.id = withdrawalId) with
  | none => .ok (none, st)
  | some existingRequest => do
    let users1 ←
      if status = .approved ∧ existingRequest.status = .pending then
        match st.users.find? (fun u => u.id = existingRequest.seller_id) with
        | none => .error "Seller not found"
        | some seller =>
          if seller.balance < existingRequest.amount then
            .error "Insufficient seller balance for withdrawal"
          else
            .ok (setBal existingRequest.seller_id (seller.balance - existingRequest.amount)
                  now st.users)
      else .ok st.users
    let withdrawals1 := st.withdrawals.map fun w =>
      if w.id = withdrawalId then applyWithdrawalUpdate w status adminNotes now else w
    .ok (some (applyWithdrawalUpdate existingRequest status adminNotes now),
         { st with users := users1, withdrawals := withdrawals1 })

/-- Input shape of `createDispute`. -/
structure CreateDisputeInput where
  transaction_id : Nat
  buyer_id : Nat
  reason : String
  description : String
deriving DecidableEq, Repr

/-- Milliseconds in one hour (`1000 * 60 * 60`). -/
def msPerHour : ℚ := 1000 * 60 * 60

/-- `createDispute(input)`: the transaction must exist and belong to the
buyer; `(now − created_at) / (1000*60*60) > 24` rejects the dispute as past
the window (the comparison uses the transaction's stored `created_at`); at
most one dispute per transaction; the new dispute copies the seller id from
the transaction and starts `open`. -/
def createDispute (input : CreateDisputeInput) (now : ℚ) (nextId : Nat) (st : MarketState) :
    Except String (DisputeRec × MarketState) :=
  match st.transactions.find?
      (fun t => t.id = input.transaction_id ∧ t.buyer_id = input.buyer_id) with
  | none => .error "Transaction not found or does not belong to buyer"
  | some txn =>
    let hoursSinceTransaction := (now - txn.created_at) / msPerHour
    if hoursSinceTransaction > 24 then
      .error "Dispute window has expired (24 hours after transaction)"
    else if st.disputes.filter (fun d => d.transaction_id = input.transaction_id) ≠ [] then
      .error "A dispute already exists for this transaction"
    else
      let d : DisputeRec :=
        { id := nextId, transaction_id := input.transaction_id,
          buyer_id := input.buyer_id, seller_id := txn.seller_id,
          reason := input.reason, description := input.description,
          status := .open, admin_notes := none, resolved_at := none,
          created_at := now, updated_at := none }
      .ok (d, { st with disputes := st.disputes ++ [d] })

/-- Input shape of `checkout`. -/
structure CheckoutInput where
  buyer_id : Nat
  payment_method : String
  cart_items : List Nat
deriving DecidableEq, Repr

/-- One row of checkout's cart-items ⋈ listings join. -/
structure JoinedItem where
  cart_id : Nat
  listing_id : Nat
  quantity : Nat
  listing_price : ℚ
  seller_id : Nat
  listing_status : ListingStatus
  listing_title : String
deriving DecidableEq, Repr

/-- Checkout's second cart query: rows whose id is among `input.cart_items`
and whose `buyer_id` is the requesting buyer, inner-joined with the
referenced listing. -/
def joinCart (input : CheckoutInput) (st : MarketState) : List JoinedItem :=
  st.cartItems.filterMap fun c =>
    if c.buyer_id = input.buyer_id ∧ c.id ∈ input.cart_items then
      (st.listings.find? (fun l => l.id = c.listing_id)).map fun l =>
        { cart_id := c.id, listing_id := c.listing_id, quantity := c.quantity,
          listing_price := l.price, seller_id := l.seller_id,
          listing_status := l.status, listing_title := l.title }
    else none

/-- Insert into an ascending list of keys. -/
def insertAsc (n : Nat) : List Nat → List Nat
  | [] => [n]
  | m :: ms => if n ≤ m then n :: m :: ms else m :: insertAsc n ms

/-- Sort keys ascending. -/
def sortAsc (l : List Nat) : List Nat := l.foldr insertAsc []

/-- The keys of checkout's `itemsBySeller` record, in the order
`Object.entries` yields them: JS enumerates integer-like keys in ascending
numeric order, one key per distinct seller. -/
def groupKeys (items : List JoinedItem) : List Nat :=
  sortAsc (items.map (fun i => i.seller_id)).dedup

/-- `sum(price × quantity)` over one seller group. -/
def groupAmount (items : List JoinedItem) : ℚ :=
  (items.map fun i => i.listing_price * (i.quantity : ℚ)).sum

/-- `platformFeeRate = 0.05`. -/
def platformFeeRate : ℚ := 5 / 100

/-- Milliseconds in 24 hours (`escrowReleaseDate.setHours(+24)`). -/
def ms24h : ℚ := 24 * msPerHour

/-- `UPDATE listings SET status = 'sold', updated_at = now WHERE id = lid`. -/
def markSold (lid : Nat) (now : ℚ) (ls : List ListingRec) : List ListingRec :=
  ls.map fun l => if l.id = lid then { l with status := .sold, updated_at := some now } else l

/-- Checkout's per-seller loop: for each seller key, take that seller's
items, sum the amount, compute the 5% fee, insert one `completed`
transaction (listing id taken from the group's first — "primary" — item,
`escrow_release_date = now + 24h`, `credentials_delivered_at = now`), mark
the primary listing sold, and credit the seller `amount − fee`.
`nextId` is the serial id of the next transaction insert. -/
def processGroups (keys : List Nat) (items : List JoinedItem) (input : CheckoutInput)
    (now : ℚ) (nextId : Nat) (st : MarketState) :
    Except String (List TransactionRec × MarketState) :=
  match keys with
  | [] => .ok ([], st)
  | sellerId :: rest =>
    let sellerItems := items.filter fun i => i.seller_id = sellerId
    match sellerItems.head? with
    | none => .error "empty seller group"
    | some primaryListing =>
      let totalAmount := groupAmount sellerItems
      let platformFee := totalAmount * platformFeeRate
      let txn : TransactionRec :=
        { id := nextId, buyer_id := input.buyer_id, seller_id := sellerId,
          listing_id := primaryListing.listing_id, amount := totalAmount,
          platform_fee := platformFee, payment_method := input.payment_method,
          status := .completed, escrow_release_date := some (now + ms24h),
          credentials_delivered_at := some now, created_at := now, updated_at := none }
      let sellerEarnings := totalAmount - platformFee
      match creditUser sellerId sellerEarnings now st.users with
      | .error e => .error e
      | .ok users1 =>
        let st1 : MarketState :=
          { st with transactions := st.transactions ++ [txn],
                    listings := markSold primaryListing.listing_id now st.listings,
                    users := users1 }
        match processGroups rest items input now (nextId + 1) st1 with
        | .error e => .error e
        | .ok (txns, st2) => .ok (txn :: txns, st2)

/-- `checkout(input)`: verify the buyer exists; verify every supplied cart
item id resolves (two guards sharing one message); verify all resolved items
belong to the buyer and join their listings; reject inactive listings and
self-purchase; then run the per-seller loop and finally delete the buyer's
consumed cart rows. -/
def checkout (input : CheckoutInput) (now : ℚ) (nextId : Nat) (st : MarketState) :
    Except String (List TransactionRec × MarketState) :=
  match st.users.find? (fun u => u.id = input.buyer_id) with
  | none => .error "Buyer not found"
  | some _ =>
    let allCartItems := st.cartItems.filter fun c => c.id ∈ input.cart_items
    if allCartItems.length = 0 then .error "No valid cart items found for checkout"
    else if allCartItems.length ≠ input.cart_items.length then
      .error "No valid cart items found for checkout"
    else
      let cartItems := joinCart input st
      if cartItems.length ≠ input.cart_items.length then
        .error "Some cart items are invalid or do not belong to the buyer"
      else if (cartItems.filter fun i => i.listing_status ≠ .active) ≠ [] then
        .error "Listings are no longer available"
      else if (cartItems.filter fun i => i.seller_id = input.buyer_id) ≠ [] then
        .error "Cannot purchase your own listings"
      else
        match processGroups (groupKeys cartItems) cartItems input now nextId st with
        | .error e => .error e
        | .ok (transactions, st1) =>
          .ok (transactions,
               { st1 with cartItems := st1.cartItems.filter fun c =>
                   ¬ (c.buyer_id = input.buyer_id ∧ c.id ∈ input.cart_items) })

/-- Concrete data for the C4 witness. -/
def listingC4 : ListingRec :=
  { id := 4, seller_id := 3, title := "IG account", description := "d",
    platform := "instagram", category := "social", price := 50,
    follower_count := some 1000, account_age_months := some 12,
    encrypted_credentials := "c2VjcmV0", status := .sold,
    created_at := 0, updated_at := none }

/-- Concrete transaction for the C4 witness: completed, undelivered,
buyer 2, listing 4. -/
def txnC4 : TransactionRec :=
  { id := 1, buyer_id := 2, seller_id := 3, listing_id := 4,
    amount := 50, platform_fee := 5/2, payment_method := "paypal",
    status := .completed, escrow_release_date := none,
    credentials_delivered_at := none, created_at := 0, updated_at := none }

/-- Concrete state for the C4 witness. -/
def stC4 : MarketState :=
  { users := [], listings := [listingC4], cartItems := [],
    transactions := [txnC4], disputes := [], withdrawals := [] }

/-- Concrete transaction for the C8 witness: created at time 0. -/
def txnC8 : TransactionRec :=
  { id := 1, buyer_id := 2, seller_id := 3, listing_id := 4, amount := 100,
    platform_fee := 5, payment_method := "paypal", status := .completed,
    escrow_release_date := none, credentials_delivered_at := none,
    created_at := 0, updated_at := none }

/-- Concrete state for the C8 witness. -/
def stC8 : MarketState :=
  { users := [], listings := [], cartItems := [], transactions := [txnC8],
    disputes := [], withdrawals := [] }

/-- Concrete pending withdrawal request for the C6 witness. -/
def wC6 : WithdrawalRec :=
  { id := 1, seller_id := 9, amount := 100, payment_method := "paypal",
    payment_details := "ZW5j", status := .pending, admin_notes := none,
    processed_at := none, created_at := 0 }

/-- Concrete seller with balance 500 for the C6 witness. -/
def uC6 : UserRec :=
  { id := 9, role := .seller, is_verified := true, balance := 500,
    created_at := 0, updated_at := none }

/-- Concrete state for the C6 witness. -/
def stC6 : MarketState :=
  { users := [uC6], listings := [], cartItems := [], transactions := [],
    disputes := [], withdrawals := [wC6] }

/-- Concrete rejected withdrawal request for the C7 counterexample. -/
def wC7 : WithdrawalRec :=
  { id := 1, seller_id := 9, amount := 100, payment_method := "paypal",
    payment_details := "ZW5j", status := .rejected, admin_notes := none,
    processed_at := none, created_at := 0 }

/-- Concrete state for the C7 counterexample. -/
def stC7 : MarketState :=
  { users := [], listings := [], cartItems := [], transactions := [],
    disputes := [], withdrawals := [wC7] }

/-- Concrete verified seller for the C5 development. -/
def sellerC5 : UserRec :=
  { id := 3, role := .seller, is_verified := true, balance := 0,
    created_at := 0, updated_at := none }

/-- Initial state for the C5 development. -/
def stC5a : MarketState :=
  { users := [sellerC5], listings := [], cartItems := [], transactions := [],
    disputes := [], withdrawals := [] }

/-- `createListing` input with plaintext credentials `"user:pass"`. -/
def inC5 : CreateListingInput :=
  { seller_id := 3, title := "IG account", description := "d",
    platform := "instagram", category := "social", price := 50,
    follower_count := none, account_age_months := none,
    credentials := "user:pass" }

/-- The listing row `createListing inC5` inserts (vault stores the base64
encoding of the plaintext). -/
def listC5 : ListingRec :=
  { id := 4, seller_id := 3, title := "IG account", description := "d",
    platform := "instagram", category := "social", price := 50,
    follower_count := none, account_age_months := none,
    encrypted_credentials := base64Encode "user:pass",
    status := .under_review, created_at := 0, updated_at := none }

/-- State after `createListing inC5`. -/
def stC5b : MarketState := { stC5a with listings := [listC5] }

/-- A completed, undelivered transaction of buyer 2 on listing 4. -/
def txnC5 : TransactionRec :=
  { id := 1, buyer_id := 2, seller_id := 3, listing_id := 4, amount := 50,
    platform_fee := 0, payment_method := "paypal", status := .completed,
    escrow_release_date := none, credentials_delivered_at := none,
    created_at := 0, updated_at := none }

/-- State with the transaction on the created listing. -/
def stC5 : MarketState := { stC5b with transactions := [txnC5] }

/-- The per-row balance relation of a credit: ids line up and no balance
decreases. -/
def BalLe (x y : UserRec) : Prop := y.id = x.id ∧ x.balance ≤ y.balance

/-- Concrete dispute for the C9 witness. -/
def dC9 : DisputeRec :=
  { id := 1, transaction_id := 1, buyer_id := 2, seller_id := 3,
    reason := "not as described", description := "x", status := .open,
    admin_notes := none, resolved_at := none, created_at := 0, updated_at := none }

/-- Concrete buyer for the C9 witness. -/
def uBuyerC9 : UserRec :=
  { id := 2, role := .buyer, is_verified := true, balance := 10,
    created_at := 0, updated_at := none }

/-- Concrete seller for the C9 witness. -/
def uSellerC9 : UserRec :=
  { id := 3, role := .seller, is_verified := true, balance := 20,
    created_at := 0, updated_at := none }

/-- Concrete disputed transaction for the C9 witness. -/
def txnC9 : TransactionRec :=
  { id := 1, buyer_id := 2, seller_id := 3, listing_id := 4,
    amount := 100, platform_fee := 10, payment_method := "paypal",
    status := .completed, escrow_release_date := none,
    credentials_delivered_at := some 0, created_at := 0, updated_at := none }

/-- Concrete state for the C9 witness: buyer 2 and seller 3 hold 10 and 20;
transaction of amount 100 with fee 10 is disputed. -/
def stC9 : MarketState :=
  { users := [uBuyerC9, uSellerC9], listings := [], cartItems := [],
    transactions := [txnC9], disputes := [dC9], withdrawals := [] }

/-- The transaction row the per-seller loop inserts for seller `sellerId`
at serial id `nid`. -/
def pgTxn (sellerId : Nat) (input : CheckoutInput) (now : ℚ) (nid : Nat)
    (items : List JoinedItem) (prim : JoinedItem) : TransactionRec :=
  { id := nid, buyer_id := input.buyer_id, seller_id := sellerId,
    listing_id := prim.listing_id,
    amount := groupAmount (items.filter fun i => i.seller_id = sellerId),
    platform_fee := groupAmount (items.filter fun i => i.seller_id = sellerId) *
      platformFeeRate,
    payment_method := input.payment_method, status := .completed,
    escrow_release_date := some (now + ms24h), credentials_delivered_at := some now,
    created_at := now, updated_at := none }

/-- The state after one iteration of the per-seller loop. -/
def pgStep (sellerId : Nat) (input : CheckoutInput) (now : ℚ) (nid : Nat)
    (items : List JoinedItem) (prim : JoinedItem) (u : UserRec) (st : MarketState) :
    MarketState :=
  { st with
    users := setBal sellerId (u.balance +
      (groupAmount (items.filter fun i => i.seller_id = sellerId) -
        groupAmount (items.filter fun i => i.seller_id = sellerId) * platformFeeRate))
      now st.users,
    listings := markSold prim.listing_id now st.listings,
    transactions := st.transactions ++ [pgTxn sellerId input now nid items prim] }

/-- Buyer for the checkout scenarios. -/
def uB2 : UserRec :=
  { id := 2, role := .buyer, is_verified := true, balance := 0,
    created_at := 0, updated_at := none }

/-- Seller 3 for the checkout scenarios. -/
def uS3 : UserRec :=
  { id := 3, role := .seller, is_verified := true, balance := 0,
    created_at := 0, updated_at := none }

/-- Seller 5 for the two-seller checkout scenario. -/
def uS5 : UserRec :=
  { id := 5, role := .seller, is_verified := true, balance := 0,
    created_at := 0, updated_at := none }

/-- Listing 1: seller 3, price 50, active. -/
def lC2a : ListingRec :=
  { id := 1, seller_id := 3, title := "A", description := "d",
    platform := "instagram", category := "social", price := 50,
    follower_count := none, account_age_months := none,
    encrypted_credentials := "eA==", status := .active,
    created_at := 0, updated_at := none }

/-- Listing 2: seller 5, price 30, active. -/
def lC2b : ListingRec :=
  { id := 2, seller_id := 5, title := "B", description := "d",
    platform := "steam", category := "game", price := 30,
    follower_count := none, account_age_months := none,
    encrypted_credentials := "eQ==", status := .active,
    created_at := 0, updated_at := none }

/-- Cart row 11: buyer 2, listing 1, quantity 1. -/
def cC2a : CartItemRec :=
  { id := 11, buyer_id := 2, listing_id := 1, quantity := 1, added_at := 0 }

/-- Cart row 12: buyer 2, listing 2, quantity 1. -/
def cC2b : CartItemRec :=
  { id := 12, buyer_id := 2, listing_id := 2, quantity := 1, added_at := 0 }

/-- Two-seller checkout scenario state. -/
def stC2 : MarketState :=
  { users := [uB2, uS3, uS5], listings := [lC2a, lC2b],
    cartItems := [cC2a, cC2b], transactions := [], disputes := [],
    withdrawals := [] }

/-- Two-seller checkout input. -/
def inC2 : CheckoutInput :=
  { buyer_id := 2, payment_method := "paypal", cart_items := [11, 12] }

/-- Joined row of cart item 11. -/
def jC2a : JoinedItem :=
  { cart_id := 11, listing_id := 1, quantity := 1, listing_price := 50,
    seller_id := 3, listing_status := .active, listing_title := "A" }

/-- Joined row of cart item 12. -/
def jC2b : JoinedItem :=
  { cart_id := 12, listing_id := 2, quantity := 1, listing_price := 30,
    seller_id := 5, listing_status := .active, listing_title := "B" }

/-- Listing 2 of the one-seller scenario: seller 3, price 30, active. -/
def lC3b : ListingRec :=
  { id := 2, seller_id := 3, title := "B", description := "d",
    platform := "steam", category := "game", price := 30,
    follower_count := none, account_age_months := none,
    encrypted_credentials := "eQ==", status := .active,
    created_at := 0, updated_at := none }

/-- One-seller, two-listing checkout state: both cart items resolve to
listings of seller 3. -/
def stC3 : MarketState :=
  { users := [uB2, uS3], listings := [lC2a, lC3b],
    cartItems := [cC2a, cC2b], transactions := [], disputes := [],
    withdrawals := [] }

/-- One-seller checkout input. -/
def inC3 : CheckoutInput :=
  { buyer_id := 2, payment_method := "paypal", cart_items := [11, 12] }

/-- Joined row of cart item 12 in the one-seller scenario. -/
def jC3b : JoinedItem :=
  { cart_id := 12, listing_id := 2, quantity := 1, listing_price := 30,
    seller_id := 3, listing_status := .active, listing_title := "B" }

/-!
## Helper lemmas about keyed row updates

A SQL `UPDATE ... WHERE key = k` is `l.map fun x => if key x = k then f x else x`
for a row transformer `f` that never touches the key column.
-/

/-- Looking up the updated key after a keyed update finds the transformed row. -/
theorem find?_update_eq {α : Type} (key : α → Nat) (k : Nat) (f : α → α) (l : List α) (a : α)
    (hkey : ∀ x, key (f x) = key x)
    (h : l.find? (fun x => key x = k) = some a) :
    (l.map fun x => if key x = k then f x else x).find? (fun x => key x = k) = some (f a) := by
  induction l with
  | nil => simp at h
  | cons b bs ih =>
    by_cases hb : key b = k
    · rw [List.find?_cons_of_pos _ (by simp [hb])] at h
      cases h
      rw [List.map_cons, if_pos hb, List.find?_cons_of_pos _ (by simp [hkey, hb])]
    · rw [List.find?_cons_of_neg _ (by simp [hb])] at h
      rw [List.map_cons, if_neg hb, List.find?_cons_of_neg _ (by simp [hkey, hb])]
      exact ih h

/-- Looking up any other key after a keyed update is unaffected. -/
theorem find?_update_ne {α : Type} (key : α → Nat) (k k' : Nat) (f : α → α) (l : List α)
    (hkk : k' ≠ k) (hkey : ∀ x, key (f x) = key x) :
    (l.map fun x => if key x = k then f x else x).find? (fun x => key x = k') =
      l.find? (fun x => key x = k') := by
  induction l with
  | nil => rfl
  | cons b bs ih =>
    by_cases hb : key b = k'
    · have hbk : ¬ key b = k := fun hc => hkk (hb ▸ hc ▸ rfl)
      rw [List.map_cons, if_neg hbk, List.find?_cons_of_pos _ (by simp [hb]),
          List.find?_cons_of_pos _ (by simp [hb])]
    · by_cases hbk : key b = k
      · rw [List.map_cons, if_pos hbk, List.find?_cons_of_neg _ (by simp [hkey, hb]),
            List.find?_cons_of_neg _ (by simp [hb])]
        exact ih
      · rw [List.map_cons, if_neg hbk, List.find?_cons_of_neg _ (by simp [hb]),
            List.find?_cons_of_neg _ (by simp [hb])]
        exact ih

/-- A keyed update leaves the key column of every row unchanged. -/
theorem map_key_update {α : Type} (key : α → Nat) (k : Nat) (f : α → α) (l : List α)
    (hkey : ∀ x, key (f x) = key x) :
    (l.map fun x => if key x = k then f x else x).map key = l.map key := by
  induction l with
  | nil => rfl
  | cons a as ih =>
    simp only [List.map_cons, ih]
    congr 1
    by_cases ha : key a = k
    · rw [if_pos ha, hkey]
    · rw [if_neg ha]

/-- A keyed update with a key absent from the table changes nothing. -/
theorem map_update_not_mem {α : Type} (key : α → Nat) (k : Nat) (f : α → α) (l : List α)
    (h : k ∉ l.map key) :
    (l.map fun x => if key x = k then f x else x) = l := by
  induction l with
  | nil => rfl
  | cons a as ih =>
    simp only [List.map_cons, List.mem_cons, not_or] at h
    rw [List.map_cons, if_neg (fun hc => h.1 hc.symm), ih h.2]

/-!
## Claim theorems
-/

/-- **C1.** For every `resolveDispute` computation over a transaction with
amount `A` and platform fee `F` (with the fee invariant `0 ≤ F ≤ A` that
checkout establishes by taking `F = 0.05·A`), the buyer refund `R` and
seller payout `S` produced by `resolutionAmounts` — the `switch` block of
`adminResolveDispute` — satisfy `R + S + F = A` whenever clamping has not
engaged (`R + F ≤ A`), and `S = 0` whenever clamping engages (`R + F > A`);
moreover the three resolutions yield `buyer_favor: R = A, S = 0`,
`seller_favor: R = 0, S = A − F`, and `partial_refund: R = refundAmount`
(with `0 ≤ refundAmount ≤ A` enforced) and `S = max 0 (A − R − F)`. -/
theorem resolve_dispute_conservation (res : Resolution) (amount fee : ℚ)
    (refundAmount : Option ℚ) (R S : ℚ)
    (hfee0 : 0 ≤ fee) (hfeeA : fee ≤ amount)
    (h : resolutionAmounts res amount fee refundAmount = .ok (R, S)) :
    ((R + fee ≤ amount → R + S + fee = amount) ∧ (amount < R + fee → S = 0)) ∧
    (res = .buyer_favor → R = amount ∧ S = 0) ∧
    (res = .seller_favor → R = 0 ∧ S = amount - fee) ∧
    (res = .partial_refund →
      refundAmount = some R ∧ 0 ≤ R ∧ R ≤ amount ∧ S = max 0 (amount - R - fee)) := by
  cases res with
  | buyer_favor =>
    simp only [resolutionAmounts, Except.ok.injEq, Prod.mk.injEq] at h
    obtain ⟨hR, hS⟩ := h
    subst hR; subst hS
    refine ⟨⟨fun hle => by linarith, fun _ => rfl⟩, fun _ => ⟨rfl, rfl⟩, ?_, ?_⟩ <;>
      intro hc <;> cases hc
  | seller_favor =>
    simp only [resolutionAmounts, Except.ok.injEq, Prod.mk.injEq] at h
    obtain ⟨hR, hS⟩ := h
    subst hR; subst hS
    refine ⟨⟨fun _ => by ring, fun hlt => by linarith⟩, ?_, fun _ => ⟨rfl, rfl⟩, ?_⟩ <;>
      intro hc <;> cases hc
  | partial_refund =>
    cases refundAmount with
    | none => exact absurd h (by simp [resolutionAmounts])
    | some r =>
      by_cases hr : r < 0 ∨ r > amount
      · rw [resolutionAmounts, if_pos hr] at h
        exact absurd h (by simp)
      · rw [resolutionAmounts, if_neg hr] at h
        simp only [Except.ok.injEq, Prod.mk.injEq] at h
        obtain ⟨hR, hS⟩ := h
        subst hR; subst hS
        push_neg at hr
        obtain ⟨hr0, hrA⟩ := hr
        refine ⟨⟨fun hle => ?_, fun hlt => ?_⟩, ?_, ?_,
                fun _ => ⟨rfl, hr0, hrA, rfl⟩⟩
        · rw [max_eq_right (by linarith : (0:ℚ) ≤ amount - r - fee)]
          ring
        · rw [max_eq_left (by linarith : amount - r - fee ≤ (0:ℚ))]
        · intro hc; cases hc
        · intro hc; cases hc

/-- Witness for C1 at the spec's own scenario: amount 100, fee 10,
`partial_refund` with refund 60 gives `(R, S) = (60, 30)`, and
`60 + 30 + 10 = 100`. -/
theorem resolve_dispute_conservation_witness :
    ((60:ℚ) + 10 ≤ 100 → (60:ℚ) + 30 + 10 = 100) ∧ ((100:ℚ) < 60 + 10 → (30:ℚ) = 0) := by
  have h := resolve_dispute_conservation .partial_refund 100 10 (some 60) 60 30
    (by norm_num) (by norm_num) (by norm_num [resolutionAmounts])
  exact h.1

/-- `find?` by id commutes with the delivery stamp. -/
theorem find?_stamp (tid : Nat) (now : ℚ) (ts : List TransactionRec) (t : TransactionRec)
    (h : ts.find? (fun x => x.id = tid) = some t) :
    (ts.map fun x =>
        if x.id = tid then
          { x with credentials_delivered_at := some now, updated_at := some now }
        else x).find? (fun x => x.id = tid) =
      some { t with credentials_delivered_at := some now, updated_at := some now } := by
  induction ts with
  | nil => simp [List.find?] at h
  | cons a as ih =>
    by_cases ha : a.id = tid
    · rw [List.find?_cons_of_pos _ (by simp [ha])] at h
      cases h
      rw [List.map_cons, if_pos ha, List.find?_cons_of_pos _ (by simp [ha])]
    · rw [List.find?_cons_of_neg _ (by simp [ha])] at h
      rw [List.map_cons, if_neg ha, List.find?_cons_of_neg _ (by simp [ha])]
      exact ih h

/-- Evaluation of `getTransactionCredentials` on the success path: the
transaction exists, the listing join succeeds, the buyer matches, the
status is `completed`, and no delivery stamp is set — the call stamps the
transaction and returns the listing's stored `encrypted_credentials`. -/
theorem getTransactionCredentials_delivers (tid bid : Nat) (now : ℚ) (st : MarketState)
    (t : TransactionRec) (l : ListingRec)
    (hT : st.transactions.find? (fun x => x.id = tid) = some t)
    (hL : st.listings.find? (fun x => x.id = t.listing_id) = some l)
    (hb : t.buyer_id = bid) (hs : t.status = .completed)
    (hc : t.credentials_delivered_at = none) :
    getTransactionCredentials tid bid now st =
      (some l.encrypted_credentials, stampDelivered tid now st) := by
  rw [getTransactionCredentials, hT]
  simp only
  rw [hL]
  simp only
  rw [if_neg (by simp [hb]), if_neg (by simp [hs]), if_neg (by simp [hc])]

/-- **C4.** `getTransactionCredentials` is at-most-once: when the transaction
exists, belongs to the requesting buyer, is `completed`, and has no delivery
stamp, the first call returns the secret and stamps
`credentials_delivered_at`, and every subsequent call on the stamped state
returns `none` without changing it; and whenever the transaction is missing,
the buyer differs, the status is not `completed`, or the stamp is already
set, the call returns `none` with the state unchanged. -/
theorem credentials_at_most_once (tid bid : Nat) (st : MarketState) :
    (∀ t l, st.transactions.find? (fun x => x.id = tid) = some t →
       st.listings.find? (fun x => x.id = t.listing_id) = some l →
       t.buyer_id = bid → t.status = .completed → t.credentials_delivered_at = none →
       ∀ now, getTransactionCredentials tid bid now st =
           (some l.encrypted_credentials, stampDelivered tid now st) ∧
         ∀ now2, getTransactionCredentials tid bid now2 (stampDelivered tid now st) =
           (none, stampDelivered tid now st)) ∧
    (st.transactions.find? (fun x => x.id = tid) = none →
       ∀ now, getTransactionCredentials tid bid now st = (none, st)) ∧
    (∀ t, st.transactions.find? (fun x => x.id = tid) = some t → t.buyer_id ≠ bid →
       ∀ now, getTransactionCredentials tid bid now st = (none, st)) ∧
    (∀ t, st.transactions.find? (fun x => x.id = tid) = some t → t.status ≠ .completed →
       ∀ now, getTransactionCredentials tid bid now st = (none, st)) ∧
    (∀ t, st.transactions.find? (fun x => x.id = tid) = some t →
       t.credentials_delivered_at ≠ none →
       ∀ now, getTransactionCredentials tid bid now st = (none, st)) := by
  refine ⟨?_, ?_, ?_, ?_, ?_⟩
  · intro t l hT hL hb hs hc now
    constructor
    · exact getTransactionCredentials_delivers tid bid now st t l hT hL hb hs hc
    · intro now2
      have hT2 := find?_stamp tid now st.transactions t hT
      rw [getTransactionCredentials]
      simp only [stampDelivered] at hT2 ⊢
      rw [hT2]
      simp only
      rw [hL]
      simp only
      rw [if_neg (by simp [hb]), if_neg (by simp [hs]), if_pos (by simp)]
  · intro hT now
    rw [getTransactionCredentials, hT]
  · intro t hT hb now
    rw [getTransactionCredentials, hT]
    simp only
    cases hL : st.listings.find? (fun x => x.id = t.listing_id) with
    | none => rfl
    | some l => simp only [if_pos hb]
  · intro t hT hs now
    rw [getTransactionCredentials, hT]
    simp only
    cases hL : st.listings.find? (fun x => x.id = t.listing_id) with
    | none => rfl
    | some l =>
      by_cases hb : t.buyer_id ≠ bid
      · simp only [if_pos hb]
      · simp only [if_neg hb, if_pos hs]
  · intro t hT hc now
    rw [getTransactionCredentials, hT]
    simp only
    cases hL : st.listings.find? (fun x => x.id = t.listing_id) with
    | none => rfl
    | some l =>
      by_cases hb : t.buyer_id ≠ bid
      · simp only [if_pos hb]
      · by_cases hs : t.status ≠ TransactionStatus.completed
        · simp only [if_neg hb, if_pos hs]
        · simp only [if_neg hb, if_neg hs, if_pos hc]

/-- Witness for C4: on `stC4` the first delivery call returns the stored
secret and the second returns `none` and leaves the state alone. -/
theorem credentials_at_most_once_witness :
    getTransactionCredentials 1 2 5 stC4 =
        (some "c2VjcmV0", stampDelivered 1 5 stC4) ∧
      ∀ now2, getTransactionCredentials 1 2 now2 (stampDelivered 1 5 stC4) =
        (none, stampDelivered 1 5 stC4) :=
  (credentials_at_most_once 1 2 stC4).1 txnC4 listingC4 (by rfl) (by rfl)
    (by rfl) (by rfl) (by rfl) 5

/-- **C8.** For a transaction that exists, belongs to the requesting buyer,
and has no existing dispute, `createDispute` succeeds when the transaction's
stored `created_at` lies 23 h 59 m before the call and fails with the
window-expired error when it lies 24 h 01 m before the call; the comparison
is against the stored `created_at` field. -/
theorem create_dispute_window (input : CreateDisputeInput) (now : ℚ) (nextId : Nat)
    (st : MarketState) (txn : TransactionRec)
    (hfind : st.transactions.find?
      (fun t => t.id = input.transaction_id ∧ t.buyer_id = input.buyer_id) = some txn)
    (hnodisp : st.disputes.filter (fun d => d.transaction_id = input.transaction_id) = []) :
    (txn.created_at = now - (23 * msPerHour + 59 * (1000 * 60)) →
       ∃ d st', createDispute input now nextId st = .ok (d, st')) ∧
    (txn.created_at = now - (24 * msPerHour + 1 * (1000 * 60)) →
       createDispute input now nextId st =
         .error "Dispute window has expired (24 hours after transaction)") := by
  constructor
  · intro hc
    rw [createDispute, hfind]
    simp only
    rw [if_neg (by rw [hc]; norm_num [msPerHour]), if_neg (by simp [hnodisp])]
    exact ⟨_, _, rfl⟩
  · intro hc
    rw [createDispute, hfind]
    simp only
    rw [if_pos (by rw [hc]; norm_num [msPerHour])]

/-- Witness for C8: a dispute opened exactly 23 h 59 m (= 86 340 000 ms)
after the transaction's stored creation time succeeds. -/
theorem create_dispute_window_witness :
    ∃ d st', createDispute ⟨1, 2, "not as described", "details"⟩ 86340000 7 stC8 =
      .ok (d, st') :=
  (create_dispute_window ⟨1, 2, "not as described", "details"⟩ 86340000 7 stC8 txnC8
    (by decide) (by decide)).1 (by norm_num [txnC8, msPerHour])

/-- Evaluation of `adminProcessWithdrawal` when the guarded debit branch is
not taken (any call that is not `approved`-from-`pending`): the request row
is rewritten to the requested status but no balance moves. -/
theorem adminProcessWithdrawal_no_debit (wid : Nat) (action : AdminWithdrawalStatus)
    (notes : Option String) (now : ℚ) (st : MarketState) (w : WithdrawalRec)
    (hw : st.withdrawals.find? (fun x => x.id = wid) = some w)
    (hcond : ¬ (action = .approved ∧ w.status = .pending)) :
    adminProcessWithdrawal wid action notes now st =
      .ok (some (applyWithdrawalUpdate w action notes now),
           { st with withdrawals := st.withdrawals.map fun x =>
               if x.id = wid then applyWithdrawalUpdate x action notes now else x }) := by
  rw [adminProcessWithdrawal, hw]
  simp only
  rw [if_neg hcond]
  rfl

/-- Evaluation of `adminProcessWithdrawal` on the `approved`-from-`pending`
path with sufficient balance: the seller is debited by the request amount
and the request row becomes `approved`. -/
theorem adminProcessWithdrawal_approve_pending (wid : Nat) (notes : Option String)
    (now : ℚ) (st : MarketState) (w : WithdrawalRec) (u : UserRec)
    (hw : st.withdrawals.find? (fun x => x.id = wid) = some w)
    (hpend : w.status = .pending)
    (hu : st.users.find? (fun x => x.id = w.seller_id) = some u)
    (hsuff : w.amount ≤ u.balance) :
    adminProcessWithdrawal wid .approved notes now st =
      .ok (some (applyWithdrawalUpdate w .approved notes now),
           { st with users := setBal w.seller_id (u.balance - w.amount) now st.users,
                     withdrawals := st.withdrawals.map fun x =>
                       if x.id = wid then applyWithdrawalUpdate x .approved notes now else x }) := by
  rw [adminProcessWithdrawal, hw]
  simp only
  rw [if_pos (by simp [hpend]), hu]
  simp only
  rw [if_neg (not_lt.mpr hsuff)]
  rfl

/-- **C6.** `processWithdrawal(id, 'approved')` debits the seller exactly
when the request is `pending` and the balance suffices: on that path the
seller's balance drops by the request amount, and a second `approved` call
on the resulting state leaves every balance unchanged (so two calls debit
once in total); with insufficient balance the call fails with the
insufficient-seller-balance error before any mutation; and when the request
is not `pending`, no balance changes at all. -/
theorem withdrawal_approval_debits_once (wid : Nat) (notes : Option String) (now : ℚ)
    (st : MarketState) :
    (∀ w u, st.withdrawals.find? (fun x => x.id = wid) = some w → w.status = .pending →
       st.users.find? (fun x => x.id = w.seller_id) = some u → w.amount ≤ u.balance →
       ∃ st', adminProcessWithdrawal wid .approved notes now st =
           .ok (some (applyWithdrawalUpdate w .approved notes now), st') ∧
         st'.users = setBal w.seller_id (u.balance - w.amount) now st.users ∧
         ∀ notes2 now2, ∃ r2 st2,
           adminProcessWithdrawal wid .approved notes2 now2 st' = .ok (r2, st2) ∧
             st2.users = st'.users) ∧
    (∀ w u, st.withdrawals.find? (fun x => x.id = wid) = some w → w.status = .pending →
       st.users.find? (fun x => x.id = w.seller_id) = some u → u.balance < w.amount →
       adminProcessWithdrawal wid .approved notes now st =
         .error "Insufficient seller balance for withdrawal") ∧
    (∀ w, st.withdrawals.find? (fun x => x.id = wid) = some w → w.status ≠ .pending →
       ∃ r st', adminProcessWithdrawal wid .approved notes now st = .ok (r, st') ∧
         st'.users = st.users) := by
  refine ⟨?_, ?_, ?_⟩
  · intro w u hw hpend hu hsuff
    refine ⟨_, adminProcessWithdrawal_approve_pending wid notes now st w u hw hpend hu hsuff,
            rfl, ?_⟩
    intro notes2 now2
    have hw2 : (st.withdrawals.map fun x =>
        if x.id = wid then applyWithdrawalUpdate x .approved notes now else x).find?
          (fun x => x.id = wid) = some (applyWithdrawalUpdate w .approved notes now) :=
      find?_update_eq (fun x : WithdrawalRec => x.id) wid
        (fun x => applyWithdrawalUpdate x .approved notes now) st.withdrawals w
        (fun _ => rfl) hw
    have h2 := adminProcessWithdrawal_no_debit wid .approved notes2 now2
      { st with users := setBal w.seller_id (u.balance - w.amount) now st.users,
                withdrawals := st.withdrawals.map fun x =>
                  if x.id = wid then applyWithdrawalUpdate x .approved notes now else x }
      (applyWithdrawalUpdate w .approved notes now) hw2
      (fun hc => by simpa [applyWithdrawalUpdate, AdminWithdrawalStatus.toStatus] using hc.2)
    exact ⟨_, _, h2, rfl⟩
  · intro w u hw hpend hu hinsuff
    rw [adminProcessWithdrawal, hw]
    simp only
    rw [if_pos (by simp [hpend]), hu]
    simp only
    rw [if_pos hinsuff]
    rfl
  · intro w hw hnp
    exact ⟨_, _, adminProcessWithdrawal_no_debit wid .approved notes now st w hw
      (fun hc => hnp hc.2), rfl⟩

/-- Witness for C6 at the spec's scenario (balance 500, request 100):
approval debits the seller to 400, and a second approval call leaves the
balances alone. -/
theorem withdrawal_approval_debits_once_witness :
    ∃ st', adminProcessWithdrawal 1 .approved none 0 stC6 =
        .ok (some (applyWithdrawalUpdate wC6 .approved none 0), st') ∧
      st'.users = setBal 9 (500 - 100) 0 stC6.users ∧
      ∀ notes2 now2, ∃ r2 st2,
        adminProcessWithdrawal 1 .approved notes2 now2 st' = .ok (r2, st2) ∧
          st2.users = st'.users :=
  (withdrawal_approval_debits_once 1 none 0 stC6).1 wC6 uC6 (by rfl) (by rfl) (by rfl)
    (by norm_num [wC6, uC6])

/-- **C7 (counterexample).** A request whose current status is `rejected`
is moved to `approved` by `processWithdrawal(1, 'approved')` — the handler
writes the requested status unconditionally, so the claimed
`pending → approved → completed / pending → rejected` state machine is not
enforced on status writes. -/
theorem withdrawal_state_machine_counterexample :
    wC7.status = .rejected ∧
    adminProcessWithdrawal 1 .approved none 0 stC7 =
      .ok (some { wC7 with status := .approved },
           { stC7 with withdrawals := [{ wC7 with status := .approved }] }) :=
  ⟨rfl, rfl⟩

/-- **C7 (amended).** Only the balance debit follows the
`pending → approved` guard: `processWithdrawal` writes the requested status
to the request row unconditionally (so e.g. `rejected → approved` and
`completed → approved` occur), and every call that is not
`approved`-from-`pending` leaves all user balances unchanged. -/
theorem withdrawal_status_written_unconditionally (wid : Nat)
    (action : AdminWithdrawalStatus) (notes : Option String) (now : ℚ)
    (st : MarketState) (w : WithdrawalRec)
    (hw : st.withdrawals.find? (fun x => x.id = wid) = some w) :
    (∀ w' st', adminProcessWithdrawal wid action notes now st = .ok (some w', st') →
       w'.status = action.toStatus) ∧
    (¬ (action = .approved ∧ w.status = .pending) →
       ∃ st', adminProcessWithdrawal wid action notes now st =
           .ok (some (applyWithdrawalUpdate w action notes now), st') ∧
         st'.users = st.users) := by
  constructor
  · intro w' st' h
    by_cases hcond : action = .approved ∧ w.status = .pending
    · rw [adminProcessWithdrawal, hw] at h
      simp only at h
      rw [if_pos hcond] at h
      cases hu : st.users.find? (fun x => x.id = w.seller_id) with
      | none => rw [hu] at h; simp only at h; exact absurd h (by simp [Bind.bind, Except.bind])
      | some u =>
        rw [hu] at h
        simp only at h
        by_cases hbal : u.balance < w.amount
        · rw [if_pos hbal] at h
          exact absurd h (by simp [Bind.bind, Except.bind])
        · rw [if_neg hbal] at h
          simp only [Bind.bind, Except.bind, Except.ok.injEq, Prod.mk.injEq,
            Option.some.injEq] at h
          rw [← h.1]
          rfl
    · have h2 := adminProcessWithdrawal_no_debit wid action notes now st w hw hcond
      rw [h2] at h
      simp only [Except.ok.injEq, Prod.mk.injEq, Option.some.injEq] at h
      rw [← h.1]
      rfl
  · intro hcond
    exact ⟨_, adminProcessWithdrawal_no_debit wid action notes now st w hw hcond, rfl⟩

/-- Witness for C7 (amended), at the counterexample's own input: the
rejected request 1 of `stC7` is rewritten to `approved` with no balance
change. -/
theorem withdrawal_status_written_unconditionally_witness :
    ∃ st', adminProcessWithdrawal 1 .approved none 0 stC7 =
        .ok (some (applyWithdrawalUpdate wC7 .approved none 0), st') ∧
      st'.users = stC7.users :=
  (withdrawal_status_written_unconditionally 1 .approved none 0 stC7 wC7 (by rfl)).2
    (fun hc => by cases hc.2)

/-- **C5 (counterexample).** For the listing created by `createListing` with
plaintext credentials `"user:pass"`, the successful delivery call returns
`"dXNlcjpwYXNz"` — the stored base64 blob — and not the original plaintext
`"user:pass"`: delivery does not invert the vault's encoding. -/
theorem delivery_not_decoded_counterexample :
    createListing inC5 0 4 stC5a = .ok (listC5, stC5b) ∧
    getTransactionCredentials 1 2 5 stC5 =
      (some "dXNlcjpwYXNz", stampDelivered 1 5 stC5) ∧
    base64Encode "user:pass" = "dXNlcjpwYXNz" ∧
    ("dXNlcjpwYXNz" : String) ≠ "user:pass" :=
  ⟨rfl, by decide, by decide, by decide⟩

/-- **C5 (amended).** For every listing created through `createListing`
with plaintext credentials `s` (stored as the vault's base64 encoding of
`s`), a successful `deliverCredentials` call for a transaction on that
listing returns the stored encoded blob `base64Encode s` verbatim — the
handler does not decode it back to `s`. -/
theorem delivery_returns_stored_encoding (input : CreateListingInput)
    (nowC nowD : ℚ) (nid bid : Nat) (st st1 st2 : MarketState)
    (l : ListingRec) (t : TransactionRec)
    (hcreate : createListing input nowC nid st = .ok (l, st1))
    (hT : st2.transactions.find? (fun x => x.id = t.id) = some t)
    (hL : st2.listings.find? (fun x => x.id = t.listing_id) = some l)
    (hb : t.buyer_id = bid) (hs : t.status = .completed)
    (hc : t.credentials_delivered_at = none) :
    getTransactionCredentials t.id bid nowD st2 =
      (some (base64Encode input.credentials), stampDelivered t.id nowD st2) := by
  have henc : l.encrypted_credentials = base64Encode input.credentials := by
    rw [createListing] at hcreate
    cases hfind : st.users.find? (fun u => u.id = input.seller_id) with
    | none => rw [hfind] at hcreate; exact absurd hcreate (by simp)
    | some seller =>
      rw [hfind] at hcreate
      simp only at hcreate
      by_cases hv : seller.is_verified
      · rw [if_neg (by simpa using hv)] at hcreate
        simp only [Except.ok.injEq, Prod.mk.injEq] at hcreate
        rw [← hcreate.1]
      · rw [if_pos (by simpa using hv)] at hcreate
        exact absurd hcreate (by simp)
  rw [← henc]
  exact getTransactionCredentials_delivers t.id bid nowD st2 t l hT hL hb hs hc

/-- Witness for C5 (amended) at the counterexample's input: delivery on
`stC5` returns `base64Encode "user:pass"`. -/
theorem delivery_returns_stored_encoding_witness :
    getTransactionCredentials 1 2 5 stC5 =
      (some (base64Encode "user:pass"), stampDelivered 1 5 stC5) :=
  delivery_returns_stored_encoding inC5 0 5 4 2 stC5a stC5b stC5 listC5 txnC5
    rfl (by rfl) (by rfl) (by rfl) (by rfl) (by rfl)

/-- Inversion of a successful `Except` bind. -/
theorem except_bind_ok {ε α β : Type} {e : Except ε α} {f : α → Except ε β} {b : β}
    (h : (e >>= f) = .ok b) : ∃ a, e = .ok a ∧ f a = .ok b := by
  cases e with
  | error x => simp [Bind.bind, Except.bind] at h
  | ok a => exact ⟨a, rfl, by simpa [Bind.bind, Except.bind] using h⟩

/-- `BalLe` chains. -/
theorem forall2_balLe_trans {l1 l2 l3 : List UserRec}
    (h12 : List.Forall₂ BalLe l1 l2) (h23 : List.Forall₂ BalLe l2 l3) :
    List.Forall₂ BalLe l1 l3 := by
  induction h12 generalizing l3 with
  | nil => cases h23; exact List.Forall₂.nil
  | cons hab h ih =>
    cases h23 with
    | cons hbc h' =>
      exact List.Forall₂.cons ⟨hbc.1.trans hab.1, hab.2.trans hbc.2⟩ (ih h')

/-- Writing a not-smaller balance to the unique row with key `uid` relates
old and new tables by `BalLe`. -/
theorem forall2_setBal (uid : Nat) (b now : ℚ) (users : List UserRec) (u : UserRec)
    (hnd : (users.map fun x => x.id).Nodup)
    (h : users.find? (fun x => x.id = uid) = some u) (hb : u.balance ≤ b) :
    List.Forall₂ BalLe users (setBal uid b now users) := by
  induction users with
  | nil => simp at h
  | cons a as ih =>
    simp only [List.map_cons, List.nodup_cons] at hnd
    by_cases ha : a.id = uid
    · rw [List.find?_cons_of_pos _ (by simp [ha])] at h
      have hu : a = u := Option.some.inj h
      subst hu
      have htl : setBal uid b now as = as :=
        map_update_not_mem (fun x : UserRec => x.id) uid _ as (fun hc => hnd.1 (ha ▸ hc))
      show List.Forall₂ BalLe (a :: as) ((if a.id = uid then _ else a) :: setBal uid b now as)
      rw [if_pos ha, htl]
      exact List.Forall₂.cons ⟨rfl, hb⟩ (List.forall₂_same.mpr fun x _ => ⟨rfl, le_refl _⟩)
    · rw [List.find?_cons_of_neg _ (by simp [ha])] at h
      show List.Forall₂ BalLe (a :: as) ((if a.id = uid then _ else a) :: setBal uid b now as)
      rw [if_neg ha]
      exact List.Forall₂.cons ⟨rfl, le_refl _⟩ (ih hnd.2 h)

/-- Writing balance `b` to the unique row with key `uid` changes the total
of all balances by `b − u.balance`. -/
theorem sum_setBal (uid : Nat) (b now : ℚ) (users : List UserRec) (u : UserRec)
    (hnd : (users.map fun x => x.id).Nodup)
    (h : users.find? (fun x => x.id = uid) = some u) :
    ((setBal uid b now users).map fun x => x.balance).sum =
      (users.map fun x => x.balance).sum - u.balance + b := by
  induction users with
  | nil => simp at h
  | cons a as ih =>
    simp only [List.map_cons, List.nodup_cons] at hnd
    by_cases ha : a.id = uid
    · rw [List.find?_cons_of_pos _ (by simp [ha])] at h
      have hu : a = u := Option.some.inj h
      subst hu
      have htl : setBal uid b now as = as :=
        map_update_not_mem (fun x : UserRec => x.id) uid _ as (fun hc => hnd.1 (ha ▸ hc))
      show (((if a.id = uid then
          { a with balance := b, updated_at := some now } else a) ::
          setBal uid b now as).map fun x => x.balance).sum = _
      rw [if_pos ha, htl]
      simp only [List.map_cons, List.sum_cons]
      ring
    · rw [List.find?_cons_of_neg _ (by simp [ha])] at h
      show (((if a.id = uid then
          { a with balance := b, updated_at := some now } else a) ::
          setBal uid b now as).map fun x => x.balance).sum = _
      rw [if_neg ha]
      simp only [List.map_cons, List.sum_cons]
      have := ih hnd.2 h
      linarith

/-- One guarded credit as `adminResolveDispute` performs it: when the share
is positive the user is credited, otherwise nothing happens; either way no
balance decreases, the grand total grows by exactly the share, and the id
column is untouched. -/
theorem credit_step (uid : Nat) (amt now : ℚ) (users users' : List UserRec)
    (hnd : (users.map fun x => x.id).Nodup) (hamt : 0 ≤ amt)
    (h : (if amt > 0 then creditUser uid amt now users else .ok users) = .ok users') :
    List.Forall₂ BalLe users users' ∧
    ((users'.map fun x => x.balance).sum = (users.map fun x => x.balance).sum + amt) ∧
    users'.map (fun x => x.id) = users.map (fun x => x.id) := by
  by_cases hpos : amt > 0
  · rw [if_pos hpos, creditUser] at h
    cases hf : users.find? (fun u => u.id = uid) with
    | none => rw [hf] at h; exact absurd h (by simp)
    | some u =>
      rw [hf] at h
      simp only [Except.ok.injEq] at h
      subst h
      refine ⟨forall2_setBal uid (u.balance + amt) now users u hnd hf (by linarith),
              ?_, map_key_update (fun x : UserRec => x.id) uid _ users (fun _ => rfl)⟩
      rw [sum_setBal uid (u.balance + amt) now users u hnd hf]
      ring
  · rw [if_neg hpos] at h
    simp only [Except.ok.injEq] at h
    subst h
    have hamt0 : amt = 0 := le_antisymm (not_lt.mp hpos) hamt
    refine ⟨List.forall₂_same.mpr fun x _ => ⟨rfl, le_refl _⟩, by rw [hamt0]; ring, rfl⟩

/-- **C9.** `resolveDispute` never debits anyone: across every successful
resolution, each user's balance is unchanged or credited (`BalLe` pointwise
between old and new user tables), and — since the buyer's refund `R` and the
seller's share `S` are only ever credited, never taken from the other side —
the sum of all user balances grows by exactly `R + S`, strictly whenever
`R + S > 0`.  (In particular, under `buyer_favor` the buyer receives the
full amount while the seller's checkout-time credit is not clawed back.) -/
theorem resolve_dispute_only_credits (did : Nat) (res : Resolution) (notes : String)
    (ra : Option ℚ) (now : ℚ) (st : MarketState) (d : DisputeRec) (st' : MarketState)
    (dispute : DisputeRec) (txn : TransactionRec) (R S : ℚ)
    (hnd : (st.users.map fun x => x.id).Nodup)
    (hd : st.disputes.find? (fun x => x.id = did) = some dispute)
    (ht : st.transactions.find? (fun x => x.id = dispute.transaction_id) = some txn)
    (hra : resolutionAmounts res txn.amount txn.platform_fee ra = .ok (R, S))
    (hR : 0 ≤ R) (hS : 0 ≤ S)
    (h : adminResolveDispute did res notes ra now st = .ok (some d, st')) :
    List.Forall₂ BalLe st.users st'.users ∧
    (st'.users.map fun x => x.balance).sum = (st.users.map fun x => x.balance).sum + R + S ∧
    (0 < R + S →
      (st.users.map fun x => x.balance).sum < (st'.users.map fun x => x.balance).sum) := by
  rw [adminResolveDispute, hd] at h
  simp only at h
  rw [ht] at h
  simp only at h
  by_cases hres : dispute.status = .resolved ∨ dispute.status = .closed
  · rw [if_pos hres] at h
    exact absurd h (by simp)
  · rw [if_neg hres, hra] at h
    simp only at h
    have key : ∃ users1 users2,
        (if R > 0 then creditUser txn.buyer_id R now st.users else .ok st.users) =
          .ok users1 ∧
        (if S > 0 then creditUser txn.seller_id S now users1 else .ok users1) =
          .ok users2 ∧
        st'.users = users2 := by
      by_cases hRpos : R > 0
      · rw [if_pos hRpos] at h
        obtain ⟨users1, h1, h2⟩ := except_bind_ok h
        by_cases hSpos : S > 0
        · rw [if_pos hSpos] at h2
          obtain ⟨users2, h2a, h2b⟩ := except_bind_ok h2
          simp only [Except.ok.injEq, Prod.mk.injEq] at h2b
          exact ⟨users1, users2, (if_pos hRpos).trans h1,
                 (if_pos hSpos).trans h2a, by rw [← h2b.2]⟩
        · rw [if_neg hSpos] at h2
          obtain ⟨users2, h2a, h2b⟩ := except_bind_ok h2
          simp only [Except.ok.injEq, Prod.mk.injEq] at h2b
          exact ⟨users1, users2, (if_pos hRpos).trans h1,
                 (if_neg hSpos).trans h2a, by rw [← h2b.2]⟩
      · rw [if_neg hRpos] at h
        obtain ⟨users1, h1, h2⟩ := except_bind_ok h
        by_cases hSpos : S > 0
        · rw [if_pos hSpos] at h2
          obtain ⟨users2, h2a, h2b⟩ := except_bind_ok h2
          simp only [Except.ok.injEq, Prod.mk.injEq] at h2b
          exact ⟨users1, users2, (if_neg hRpos).trans h1,
                 (if_pos hSpos).trans h2a, by rw [← h2b.2]⟩
        · rw [if_neg hSpos] at h2
          obtain ⟨users2, h2a, h2b⟩ := except_bind_ok h2
          simp only [Except.ok.injEq, Prod.mk.injEq] at h2b
          exact ⟨users1, users2, (if_neg hRpos).trans h1,
                 (if_neg hSpos).trans h2a, by rw [← h2b.2]⟩
    obtain ⟨users1, users2, h1, h2a, husers⟩ := key
    obtain ⟨f1, s1, i1⟩ := credit_step txn.buyer_id R now st.users users1 hnd hR h1
    have hnd1 : (users1.map fun x => x.id).Nodup := by rw [i1]; exact hnd
    obtain ⟨f2, s2, i2⟩ := credit_step txn.seller_id S now users1 users2 hnd1 hS h2a
    rw [husers]
    refine ⟨forall2_balLe_trans f1 f2, by rw [s2, s1], fun hpos => ?_⟩
    rw [s2, s1]
    linarith

/-- Evaluation of `adminResolveDispute` on the success path in which only
the buyer is credited (`R > 0`, `S ≤ 0`, as under `buyer_favor` with a
positive amount): the dispute is marked resolved, the transaction's status
is rewritten (`refunded` for `buyer_favor`), and the buyer's row is credited
by `R`. -/
theorem adminResolveDispute_eval_buyer_only (did : Nat) (res : Resolution)
    (notes : String) (ra : Option ℚ) (now : ℚ) (st : MarketState)
    (dispute : DisputeRec) (txn : TransactionRec) (R S : ℚ) (u : UserRec)
    (hd : st.disputes.find? (fun x => x.id = did) = some dispute)
    (ht : st.transactions.find? (fun x => x.id = dispute.transaction_id) = some txn)
    (hres : ¬ (dispute.status = .resolved ∨ dispute.status = .closed))
    (hra : resolutionAmounts res txn.amount txn.platform_fee ra = .ok (R, S))
    (hRpos : R > 0) (hSnpos : ¬ S > 0)
    (hu : st.users.find? (fun x => x.id = txn.buyer_id) = some u) :
    adminResolveDispute did res notes ra now st =
      .ok (some (resolvedRow dispute notes now),
           { st with
             users := setBal txn.buyer_id (u.balance + R) now st.users,
             transactions := st.transactions.map fun t =>
               if t.id = txn.id then resolvedTxnRow res now t else t,
             disputes := st.disputes.map fun d =>
               if d.id = did then resolvedRow d notes now else d }) := by
  rw [adminResolveDispute, hd]
  simp only
  rw [ht]
  simp only
  rw [if_neg hres, hra]
  simp only
  rw [if_pos hRpos, creditUser, hu]
  simp only [Bind.bind, Except.bind]
  rw [if_neg hSnpos]

/-- Witness for C9: resolving the dispute of `stC9` in the buyer's favor
(refund 100, seller share 0) only credits — balances go 10,20 → 110,20. -/
theorem resolve_dispute_only_credits_witness :
    ∃ d st', adminResolveDispute 1 .buyer_favor "notes" none 7 stC9 = .ok (some d, st') ∧
      (List.Forall₂ BalLe stC9.users st'.users ∧
       (st'.users.map fun x => x.balance).sum =
         (stC9.users.map fun x => x.balance).sum + 100 + 0 ∧
       ((0:ℚ) < 100 + 0 →
         (stC9.users.map fun x => x.balance).sum <
           (st'.users.map fun x => x.balance).sum)) := by
  have hev := adminResolveDispute_eval_buyer_only 1 .buyer_favor "notes" none 7 stC9
    dC9 txnC9 100 0 uBuyerC9 (by rfl) (by rfl) (by decide) (by rfl)
    (by norm_num) (by norm_num) (by rfl)
  exact ⟨_, _, hev,
    resolve_dispute_only_credits 1 .buyer_favor "notes" none 7 stC9 _ _ dC9 txnC9 100 0
      (by decide) (by rfl) (by rfl) (by rfl) (by norm_num) (by norm_num) hev⟩

/-- Inversion of a successful `Except` match. -/
theorem except_match_ok {ε α β : Type} {e : Except ε α} {f : α → Except ε β} {b : β}
    (h : (match e with
          | .error err => (Except.error err : Except ε β)
          | .ok a => f a) = .ok b) :
    ∃ a, e = .ok a ∧ f a = .ok b := by
  cases e with
  | error x => simp at h
  | ok a => exact ⟨a, rfl, h⟩

/-- Inversion of an `Option` match whose `none` branch errors. -/
theorem option_match_ok {ε α β : Type} {o : Option α} {msg : ε} {f : α → Except ε β}
    {b : β}
    (h : (match o with | none => (Except.error msg : Except ε β) | some a => f a) =
      .ok b) :
    ∃ a, o = some a ∧ f a = .ok b := by
  cases o with
  | none => simp at h
  | some a => exact ⟨a, rfl, h⟩

/-- Inversion of a successful `creditUser`. -/
theorem creditUser_ok (uid : Nat) (amt now : ℚ) (users users1 : List UserRec)
    (h : creditUser uid amt now users = .ok users1) :
    ∃ u, users.find? (fun x => x.id = uid) = some u ∧
      users1 = setBal uid (u.balance + amt) now users := by
  rw [creditUser] at h
  cases hf : users.find? (fun u => u.id = uid) with
  | none => rw [hf] at h; exact absurd h (by simp)
  | some u =>
    rw [hf] at h
    simp only [Except.ok.injEq] at h
    exact ⟨u, rfl, h.symm⟩

/-- After `markSold lid`, every row with id `lid` is `sold`. -/
theorem markSold_sets (lid : Nat) (now : ℚ) (ls : List ListingRec) :
    ∀ l ∈ markSold lid now ls, l.id = lid → l.status = .sold := by
  intro l hl hid
  obtain ⟨l0, hl0, heq⟩ := List.mem_map.mp hl
  by_cases h0 : l0.id = lid
  · rw [if_pos h0] at heq
    rw [← heq]
  · rw [if_neg h0] at heq
    exact absurd (heq ▸ hid) h0

/-- `markSold` never un-solds: rows of a given id that were all `sold` stay
`sold`. -/
theorem markSold_preserves (lid X : Nat) (now : ℚ) (ls : List ListingRec)
    (hX : ∀ l ∈ ls, l.id = X → l.status = .sold) :
    ∀ l ∈ markSold lid now ls, l.id = X → l.status = .sold := by
  intro l hl hid
  obtain ⟨l0, hl0, heq⟩ := List.mem_map.mp hl
  by_cases h0 : l0.id = lid
  · rw [if_pos h0] at heq
    rw [← heq]
  · rw [if_neg h0] at heq
    exact hX l0 hl0 (heq ▸ hid) ▸ (heq ▸ rfl)

/-- Everything checkout's per-seller loop guarantees on success, by
induction over the seller keys: one transaction per key carrying the
group's summed amount, its 5% fee, `completed` status and the delivery
stamp; each key's seller credited by `amount − fee`; cart rows untouched;
the id column of users preserved; the new transactions appended in order;
users outside the key set untouched; sold-ness of listings preserved; and
every produced transaction's (primary) listing left `sold`. -/
theorem processGroups_spec : ∀ (keys : List Nat) (items : List JoinedItem)
    (input : CheckoutInput) (now : ℚ) (nid : Nat) (st : MarketState)
    (txns : List TransactionRec) (st' : MarketState),
    keys.Nodup →
    processGroups keys items input now nid st = .ok (txns, st') →
    (txns.map (fun t => t.seller_id) = keys) ∧
    (∀ t ∈ txns, t.amount = groupAmount (items.filter fun i => i.seller_id = t.seller_id) ∧
       t.platform_fee = t.amount * platformFeeRate ∧
       t.status = .completed ∧ t.buyer_id = input.buyer_id ∧
       t.credentials_delivered_at = some now ∧
       t.escrow_release_date = some (now + ms24h) ∧ nid ≤ t.id) ∧
    (∀ t ∈ txns, ∀ u, st.users.find? (fun x => x.id = t.seller_id) = some u →
       ∃ u', st'.users.find? (fun x => x.id = t.seller_id) = some u' ∧
         u'.balance = u.balance + (t.amount - t.platform_fee)) ∧
    st'.cartItems = st.cartItems ∧
    st'.users.map (fun x => x.id) = st.users.map (fun x => x.id) ∧
    st'.transactions = st.transactions ++ txns ∧
    (∀ uid, uid ∉ keys →
       st'.users.find? (fun x => x.id = uid) = st.users.find? (fun x => x.id = uid)) ∧
    (∀ X, (∀ l ∈ st.listings, l.id = X → l.status = .sold) →
       ∀ l ∈ st'.listings, l.id = X → l.status = .sold) ∧
    (∀ t ∈ txns, ∀ l ∈ st'.listings, l.id = t.listing_id → l.status = .sold) := by
  intro keys
  induction keys with
  | nil =>
    intro items input now nid st txns st' hkeys h
    rw [processGroups] at h
    simp only [Except.ok.injEq, Prod.mk.injEq] at h
    obtain ⟨rfl, rfl⟩ := h
    refine ⟨rfl, by simp, by simp, rfl, rfl, by simp, fun uid _ => rfl,
            fun X hX => hX, by simp⟩
  | cons s rest ih =>
    intro items input now nid st txns st' hkeys h
    rw [processGroups] at h
    simp only at h
    split at h
    · exact absurd h (by simp)
    · rename_i prim hhead
      split at h
      · exact absurd h (by simp)
      · rename_i users1 hcu
        split at h
        · exact absurd h (by simp)
        · rename_i txns0 st2 hrec
          simp only [Except.ok.injEq, Prod.mk.injEq] at h
          obtain ⟨rfl, rfl⟩ := h
          simp only [List.nodup_cons] at hkeys
          obtain ⟨hsrest, hrestnd⟩ := hkeys
          obtain ⟨I1, I2, I3, I4, I5, I6, I8, I7, I9⟩ :=
            ih items input now (nid + 1) _ txns0 st2 hrestnd hrec
          obtain ⟨u0, hu0, husers1⟩ := creditUser_ok s _ now st.users users1 hcu
          subst husers1
          refine ⟨?_, ?_, ?_, ?_, ?_, ?_, ?_, ?_, ?_⟩
          · simpa using I1
          · intro t ht
            rcases List.mem_cons.mp ht with rfl | ht0
            · exact ⟨rfl, rfl, rfl, rfl, rfl, rfl, le_refl _⟩
            · obtain ⟨a1, a2, a3, a4, a5, a6, a7⟩ := I2 t ht0
              exact ⟨a1, a2, a3, a4, a5, a6, le_trans (Nat.le_succ nid) a7⟩
          · intro t ht u hu
            rcases List.mem_cons.mp ht with rfl | ht0
            · have hfu : (setBal s (u0.balance + (groupAmount (items.filter fun i =>
                  i.seller_id = s) - groupAmount (items.filter fun i =>
                  i.seller_id = s) * platformFeeRate)) now st.users).find?
                    (fun x => x.id = s) =
                  some { u0 with
                    balance := u0.balance + (groupAmount (items.filter fun i =>
                      i.seller_id = s) - groupAmount (items.filter fun i =>
                      i.seller_id = s) * platformFeeRate),
                    updated_at := some now } :=
                find?_update_eq (fun x : UserRec => x.id) s _ st.users u0 (fun _ => rfl) hu0
              have hu0u : u0 = u := Option.some.inj ((hu0.symm.trans hu))
              subst hu0u
              have hfind := (I8 s hsrest).trans hfu
              exact ⟨_, hfind, rfl⟩
            · have hne : t.seller_id ≠ s := by
                intro hc
                apply hsrest
                rw [← hc, ← I1]
                exact List.mem_map_of_mem _ ht0
              have hstep : (setBal s (u0.balance + (groupAmount (items.filter fun i =>
                  i.seller_id = s) - groupAmount (items.filter fun i =>
                  i.seller_id = s) * platformFeeRate)) now st.users).find?
                    (fun x => x.id = t.seller_id) =
                  st.users.find? (fun x => x.id = t.seller_id) :=
                find?_update_ne (fun x : UserRec => x.id) s t.seller_id _ st.users hne
                  (fun _ => rfl)
              exact I3 t ht0 u (hstep.trans hu)
          · exact I4
          · rw [I5]
            exact map_key_update (fun x : UserRec => x.id) s _ st.users (fun _ => rfl)
          · rw [I6]
            simp
          · intro uid huid
            simp only [List.mem_cons, not_or] at huid
            rw [I8 uid huid.2]
            exact find?_update_ne (fun x : UserRec => x.id) s uid _ st.users huid.1
              (fun _ => rfl)
          · intro X hX
            exact I7 X (markSold_preserves prim.listing_id X now st.listings hX)
          · intro t ht
            rcases List.mem_cons.mp ht with rfl | ht0
            · exact I7 prim.listing_id (markSold_sets prim.listing_id now st.listings)
            · exact I9 t ht0

/-- Membership in `insertAsc`. -/
theorem mem_insertAsc (n m : Nat) (l : List Nat) : m ∈ insertAsc n l ↔ m = n ∨ m ∈ l := by
  induction l with
  | nil => simp [insertAsc]
  | cons a as ih =>
    rw [insertAsc]
    by_cases h : n ≤ a
    · rw [if_pos h]
      simp
    · rw [if_neg h]
      simp only [List.mem_cons, ih]
      tauto

/-- `insertAsc` of a fresh key keeps the list duplicate-free. -/
theorem nodup_insertAsc (n : Nat) (l : List Nat) (hn : n ∉ l) (hl : l.Nodup) :
    (insertAsc n l).Nodup := by
  induction l with
  | nil => simp [insertAsc]
  | cons a as ih =>
    simp only [List.mem_cons, not_or] at hn
    simp only [List.nodup_cons] at hl
    rw [insertAsc]
    by_cases h : n ≤ a
    · rw [if_pos h]
      exact List.nodup_cons.mpr ⟨by simp [List.mem_cons]; exact ⟨hn.1, hn.2⟩,
        List.nodup_cons.mpr hl⟩
    · rw [if_neg h]
      refine List.nodup_cons.mpr ⟨?_, ih hn.2 hl.2⟩
      rw [mem_insertAsc]
      rintro (rfl | hmem)
      · exact hn.1 rfl
      · exact hl.1 hmem

/-- `sortAsc` keeps exactly the original keys. -/
theorem mem_sortAsc (m : Nat) (l : List Nat) : m ∈ sortAsc l ↔ m ∈ l := by
  induction l with
  | nil => simp [sortAsc]
  | cons a as ih =>
    show m ∈ insertAsc a (sortAsc as) ↔ _
    rw [mem_insertAsc, ih]
    simp

/-- `sortAsc` keeps a duplicate-free list duplicate-free. -/
theorem nodup_sortAsc (l : List Nat) (h : l.Nodup) : (sortAsc l).Nodup := by
  induction l with
  | nil => simp [sortAsc]
  | cons a as ih =>
    simp only [List.nodup_cons] at h
    show (insertAsc a (sortAsc as)).Nodup
    exact nodup_insertAsc a (sortAsc as) (fun hc => h.1 ((mem_sortAsc a as).mp hc)) (ih h.2)

/-- The seller keys of checkout's grouping are duplicate-free: one group —
hence one transaction — per seller. -/
theorem groupKeys_nodup (items : List JoinedItem) : (groupKeys items).Nodup :=
  nodup_sortAsc _ (List.nodup_dedup _)

/-- The seller keys are exactly the sellers occurring among the items. -/
theorem mem_groupKeys (s : Nat) (items : List JoinedItem) :
    s ∈ groupKeys items ↔ s ∈ items.map (fun i => i.seller_id) :=
  (mem_sortAsc s _).trans (List.mem_dedup)

/-- Inversion of a successful `checkout`: the guards all passed, the
per-seller loop ran on the joined cart grouped by `groupKeys`, and the final
state is the loop's state with the buyer's consumed cart rows deleted. -/
theorem checkout_ok_inv (input : CheckoutInput) (now : ℚ) (nid : Nat)
    (st : MarketState) (txns : List TransactionRec) (st' : MarketState)
    (h : checkout input now nid st = .ok (txns, st')) :
    ∃ st1, processGroups (groupKeys (joinCart input st)) (joinCart input st)
        input now nid st = .ok (txns, st1) ∧
      st' = { st1 with cartItems := st1.cartItems.filter fun c =>
        ¬ (c.buyer_id = input.buyer_id ∧ c.id ∈ input.cart_items) } := by
  rw [checkout] at h
  simp only at h
  split at h
  · exact absurd h (by simp)
  · split at h
    · exact absurd h (by simp)
    · split at h
      · exact absurd h (by simp)
      · split at h
        · exact absurd h (by simp)
        · split at h
          · exact absurd h (by simp)
          · split at h
            · exact absurd h (by simp)
            · split at h
              · exact absurd h (by simp)
              · rename_i txns0 st1 hpg
                simp only [Except.ok.injEq, Prod.mk.injEq] at h
                obtain ⟨rfl, rfl⟩ := h
                exact ⟨st1, hpg, rfl⟩

/-- **C2.** Every successful checkout groups the validated (joined) cart
items by seller id and produces exactly one transaction per seller group —
the transactions' seller ids are precisely the duplicate-free group keys —
each carrying `amount = Σ price·quantity` over its group,
`platform_fee = amount × 0.05`, status `completed`, the requesting buyer;
each group's seller is credited `amount − platform_fee`; and afterwards no
cart row of the buyer with a consumed id remains. -/
theorem checkout_groups_by_seller (input : CheckoutInput) (now : ℚ) (nid : Nat)
    (st : MarketState) (txns : List TransactionRec) (st' : MarketState)
    (h : checkout input now nid st = .ok (txns, st')) :
    (txns.map (fun t => t.seller_id) = groupKeys (joinCart input st) ∧
      (txns.map (fun t => t.seller_id)).Nodup) ∧
    (∀ t ∈ txns,
       t.amount = groupAmount ((joinCart input st).filter fun i =>
         i.seller_id = t.seller_id) ∧
       t.platform_fee = t.amount * platformFeeRate ∧
       t.status = .completed ∧ t.buyer_id = input.buyer_id) ∧
    (∀ t ∈ txns, ∀ u, st.users.find? (fun x => x.id = t.seller_id) = some u →
       ∃ u', st'.users.find? (fun x => x.id = t.seller_id) = some u' ∧
         u'.balance = u.balance + (t.amount - t.platform_fee)) ∧
    (∀ c ∈ st'.cartItems, ¬ (c.buyer_id = input.buyer_id ∧ c.id ∈ input.cart_items)) := by
  obtain ⟨st1, hpg, rfl⟩ := checkout_ok_inv input now nid st txns st' h
  obtain ⟨S1, S2, S3, S4, S5, S6, S8, S7, S9⟩ :=
    processGroups_spec (groupKeys (joinCart input st)) (joinCart input st)
      input now nid st txns st1 (groupKeys_nodup _) hpg
  refine ⟨⟨S1, by rw [S1]; exact groupKeys_nodup _⟩, ?_, ?_, ?_⟩
  · intro t ht
    obtain ⟨a1, a2, a3, a4, -, -, -⟩ := S2 t ht
    exact ⟨a1, a2, a3, a4⟩
  · intro t ht u hu
    exact S3 t ht u hu
  · intro c hc
    have hdec := List.of_mem_filter hc
    rw [decide_eq_true_eq] at hdec
    exact hdec

/-- **C3 (amended).** After every successful checkout, each produced
transaction's listing — the group's first ("primary") cart item's listing,
the only one the loop marks — has status `sold` in the final state.  (The
other listings of a multi-listing seller group are not touched; see the
counterexample.) -/
theorem checkout_marks_primary_listing_sold (input : CheckoutInput) (now : ℚ)
    (nid : Nat) (st : MarketState) (txns : List TransactionRec) (st' : MarketState)
    (h : checkout input now nid st = .ok (txns, st')) :
    ∀ t ∈ txns, ∀ l ∈ st'.listings, l.id = t.listing_id → l.status = .sold := by
  obtain ⟨st1, hpg, rfl⟩ := checkout_ok_inv input now nid st txns st' h
  obtain ⟨-, -, -, -, -, -, -, -, S9⟩ :=
    processGroups_spec (groupKeys (joinCart input st)) (joinCart input st)
      input now nid st txns st1 (groupKeys_nodup _) hpg
  exact S9

/-- `find?` skips a prefix with no match. -/
theorem find?_append_none {α : Type} (p : α → Bool) (l1 l2 : List α)
    (h : l1.find? p = none) : (l1 ++ l2).find? p = l2.find? p := by
  induction l1 with
  | nil => rfl
  | cons a as ih =>
    cases hpa : p a with
    | true =>
      rw [List.find?_cons_of_pos _ hpa] at h
      exact absurd h (by simp)
    | false =>
      rw [List.find?_cons_of_neg _ (by simp [hpa])] at h
      rw [List.cons_append, List.find?_cons_of_neg _ (by simp [hpa])]
      exact ih h

/-- **C10.** Every transaction created by `checkout` carries a non-null
`credentials_delivered_at` (stamped at checkout time), so a subsequent
`getTransactionCredentials` call for any such transaction — by its buyer or
anyone else — returns `none` and leaves the state unchanged, even on the
very first call: the delivery endpoint never releases credentials for a
transaction created by checkout itself. -/
theorem checkout_transactions_predelivered (input : CheckoutInput) (now : ℚ)
    (nid : Nat) (st : MarketState) (txns : List TransactionRec) (st' : MarketState)
    (hold : ∀ t0 ∈ st.transactions, t0.id < nid)
    (h : checkout input now nid st = .ok (txns, st')) :
    ∀ t ∈ txns, t.credentials_delivered_at = some now ∧
      ∀ bid now2, getTransactionCredentials t.id bid now2 st' = (none, st') := by
  obtain ⟨st1, hpg, rfl⟩ := checkout_ok_inv input now nid st txns st' h
  obtain ⟨-, S2, -, -, -, S6, -, -, -⟩ :=
    processGroups_spec (groupKeys (joinCart input st)) (joinCart input st)
      input now nid st txns st1 (groupKeys_nodup _) hpg
  intro t ht
  obtain ⟨-, -, -, -, hcd, -, hle⟩ := S2 t ht
  refine ⟨hcd, ?_⟩
  intro bid now2
  have htrans : ({ st1 with cartItems := st1.cartItems.filter fun c =>
      ¬ (c.buyer_id = input.buyer_id ∧ c.id ∈ input.cart_items) } :
        MarketState).transactions = st.transactions ++ txns := S6
  have hpre : st.transactions.find? (fun x => x.id = t.id) = none := by
    rw [List.find?_eq_none]
    intro t0 ht0
    simp only [decide_eq_true_eq]
    exact fun hc => absurd (hc ▸ hold t0 ht0) (not_lt.mpr hle)
  have hfind : ({ st1 with cartItems := st1.cartItems.filter fun c =>
      ¬ (c.buyer_id = input.buyer_id ∧ c.id ∈ input.cart_items) } :
        MarketState).transactions.find? (fun x => x.id = t.id) =
      txns.find? (fun x => x.id = t.id) := by
    rw [htrans]
    exact find?_append_none _ _ _ hpre
  cases hf : txns.find? (fun x => x.id = t.id) with
  | none =>
    exact absurd (List.find?_eq_none.mp hf t ht) (by simp)
  | some t' =>
    have ht' : t' ∈ txns := List.mem_of_find?_eq_some hf
    obtain ⟨-, -, -, -, hcd', -, -⟩ := S2 t' ht'
    rw [getTransactionCredentials, hfind.trans hf]
    simp only
    cases hL : ({ st1 with cartItems := st1.cartItems.filter fun c =>
        ¬ (c.buyer_id = input.buyer_id ∧ c.id ∈ input.cart_items) } :
          MarketState).listings.find? (fun l => l.id = t'.listing_id) with
    | none => rfl
    | some listing =>
      by_cases hb : t'.buyer_id ≠ bid
      · simp only [if_pos hb]
      · by_cases hs : t'.status ≠ TransactionStatus.completed
        · simp only [if_neg hb, if_pos hs]
        · have hcne : t'.credentials_delivered_at ≠ none := by
            rw [hcd']
            exact Option.some_ne_none _
          simp only [if_neg hb, if_neg hs, if_pos hcne]

/-- One unfolding of the per-seller loop on concrete data. -/
theorem processGroups_cons_eval (s : Nat) (rest : List Nat) (items : List JoinedItem)
    (input : CheckoutInput) (now : ℚ) (nid : Nat) (st : MarketState)
    (prim : JoinedItem) (u : UserRec) (txns : List TransactionRec) (st2 : MarketState)
    (hhead : (items.filter fun i => i.seller_id = s).head? = some prim)
    (hu : st.users.find? (fun x => x.id = s) = some u)
    (hrec : processGroups rest items input now (nid + 1)
        (pgStep s input now nid items prim u st) = .ok (txns, st2)) :
    processGroups (s :: rest) items input now nid st =
      .ok (pgTxn s input now nid items prim :: txns, st2) := by
  rw [processGroups]
  simp only
  rw [hhead]
  simp only
  rw [creditUser, hu]
  simp only
  simp only [pgStep, pgTxn] at hrec
  rw [hrec]
  rfl

/-- Evaluation of `checkout` on concrete data with all guards passing. -/
theorem checkout_eval (input : CheckoutInput) (now : ℚ) (nid : Nat) (st : MarketState)
    (b : UserRec) (txns : List TransactionRec) (st1 : MarketState)
    (hb : st.users.find? (fun u => u.id = input.buyer_id) = some b)
    (hlen0 : ¬ (st.cartItems.filter fun c => c.id ∈ input.cart_items).length = 0)
    (hlen : (st.cartItems.filter fun c => c.id ∈ input.cart_items).length =
      input.cart_items.length)
    (hjlen : (joinCart input st).length = input.cart_items.length)
    (hact : ((joinCart input st).filter fun i => i.listing_status ≠ .active) = [])
    (hself : ((joinCart input st).filter fun i => i.seller_id = input.buyer_id) = [])
    (hpg : processGroups (groupKeys (joinCart input st)) (joinCart input st)
      input now nid st = .ok (txns, st1)) :
    checkout input now nid st =
      .ok (txns, { st1 with cartItems := st1.cartItems.filter fun c =>
        ¬ (c.buyer_id = input.buyer_id ∧ c.id ∈ input.cart_items) }) := by
  rw [checkout, hb]
  simp only
  rw [if_neg hlen0, if_neg (fun hc => hc hlen), if_neg (fun hc => hc hjlen),
      if_neg (fun hc => hc hact), if_neg (fun hc => hc hself), hpg]

/-- Concrete evaluation of the two-seller checkout: it succeeds and
produces the two per-seller transactions. -/
theorem checkoutC2_eval :
    ∃ st', checkout inC2 0 10 stC2 =
      .ok ([pgTxn 3 inC2 0 10 (joinCart inC2 stC2) jC2a,
            pgTxn 5 inC2 0 11 (joinCart inC2 stC2) jC2b], st') := by
  have hpg : processGroups [3, 5] (joinCart inC2 stC2) inC2 0 10 stC2 =
      .ok ([pgTxn 3 inC2 0 10 (joinCart inC2 stC2) jC2a,
            pgTxn 5 inC2 0 11 (joinCart inC2 stC2) jC2b],
           pgStep 5 inC2 0 11 (joinCart inC2 stC2) jC2b uS5
             (pgStep 3 inC2 0 10 (joinCart inC2 stC2) jC2a uS3 stC2)) :=
    processGroups_cons_eval 3 [5] (joinCart inC2 stC2) inC2 0 10 stC2 jC2a uS3 _ _
      (by rfl) (by rfl)
      (processGroups_cons_eval 5 [] (joinCart inC2 stC2) inC2 0 11 _ jC2b uS5 _ _
        (by rfl) (by rfl) rfl)
  have hkeys : groupKeys (joinCart inC2 stC2) = [3, 5] := by rfl
  have hpg2 : processGroups (groupKeys (joinCart inC2 stC2)) (joinCart inC2 stC2)
      inC2 0 10 stC2 =
      .ok ([pgTxn 3 inC2 0 10 (joinCart inC2 stC2) jC2a,
            pgTxn 5 inC2 0 11 (joinCart inC2 stC2) jC2b],
           pgStep 5 inC2 0 11 (joinCart inC2 stC2) jC2b uS5
             (pgStep 3 inC2 0 10 (joinCart inC2 stC2) jC2a uS3 stC2)) := by
    rw [hkeys]
    exact hpg
  exact ⟨_, checkout_eval inC2 0 10 stC2 uB2 _ _ (by rfl) (by decide) (by decide)
    (by rfl) (by rfl) (by rfl) hpg2⟩

/-- Witness for C2 at the spec's scenario: two cart items from sellers 3
and 5 at prices 50 and 30 yield two transactions with amounts 50/30, fees
2.5/1.5, status completed, for buyer 2; each seller is credited
`amount − fee` and the consumed cart rows are gone. -/
theorem checkout_groups_by_seller_witness :
    ∃ txns st', checkout inC2 0 10 stC2 = .ok (txns, st') ∧
      (txns.map (fun t => t.seller_id) = [3, 5] ∧
        (txns.map (fun t => t.seller_id)).Nodup) ∧
      (∀ t ∈ txns, t.status = .completed ∧ t.buyer_id = 2) ∧
      txns.map (fun t => t.amount) = [50, 30] ∧
      txns.map (fun t => t.platform_fee) = [5/2, 3/2] ∧
      (∀ t ∈ txns, ∀ u, stC2.users.find? (fun x => x.id = t.seller_id) = some u →
        ∃ u', st'.users.find? (fun x => x.id = t.seller_id) = some u' ∧
          u'.balance = u.balance + (t.amount - t.platform_fee)) ∧
      (∀ c ∈ st'.cartItems, ¬ (c.buyer_id = 2 ∧ c.id ∈ inC2.cart_items)) := by
  obtain ⟨st', hev⟩ := checkoutC2_eval
  obtain ⟨⟨m1, m2⟩, mb, mc, md⟩ :=
    checkout_groups_by_seller inC2 0 10 stC2 _ st' hev
  have hf3 : (joinCart inC2 stC2).filter (fun i => i.seller_id = 3) = [jC2a] := by rfl
  have hf5 : (joinCart inC2 stC2).filter (fun i => i.seller_id = 5) = [jC2b] := by rfl
  refine ⟨_, st', hev, ⟨by rw [m1]; rfl, m2⟩, ?_, ?_, ?_, mc, md⟩
  · intro t ht
    obtain ⟨-, -, h3, h4⟩ := mb t ht
    exact ⟨h3, h4⟩
  · show [pgTxn 3 inC2 0 10 (joinCart inC2 stC2) jC2a,
          pgTxn 5 inC2 0 11 (joinCart inC2 stC2) jC2b].map (fun t => t.amount) = [50, 30]
    simp only [List.map_cons, List.map_nil, pgTxn]
    rw [hf3, hf5]
    norm_num [groupAmount, jC2a, jC2b]
  · show [pgTxn 3 inC2 0 10 (joinCart inC2 stC2) jC2a,
          pgTxn 5 inC2 0 11 (joinCart inC2 stC2) jC2b].map (fun t => t.platform_fee) =
        [5/2, 3/2]
    simp only [List.map_cons, List.map_nil, pgTxn]
    rw [hf3, hf5]
    norm_num [groupAmount, platformFeeRate, jC2a, jC2b]

/-- Witness for C10: on the two-seller scenario, every produced transaction
is stamped delivered at checkout time, and delivery calls against the final
state return `none`. -/
theorem checkout_transactions_predelivered_witness :
    ∃ txns st', checkout inC2 0 10 stC2 = .ok (txns, st') ∧
      ∀ t ∈ txns, t.credentials_delivered_at = some 0 ∧
        ∀ bid now2, getTransactionCredentials t.id bid now2 st' = (none, st') := by
  obtain ⟨st', hev⟩ := checkoutC2_eval
  exact ⟨_, st', hev,
    checkout_transactions_predelivered inC2 0 10 stC2 _ st' (by simp [stC2]) hev⟩

/-- Concrete evaluation of the one-seller, two-listing checkout: one
transaction (primary = listing 1), and the final listings table is
`markSold 1` — only listing 1 was touched. -/
theorem checkoutC3_eval :
    ∃ st', checkout inC3 0 10 stC3 =
        .ok ([pgTxn 3 inC3 0 10 (joinCart inC3 stC3) jC2a], st') ∧
      st'.listings = markSold 1 0 stC3.listings := by
  have hpg : processGroups [3] (joinCart inC3 stC3) inC3 0 10 stC3 =
      .ok ([pgTxn 3 inC3 0 10 (joinCart inC3 stC3) jC2a],
           pgStep 3 inC3 0 10 (joinCart inC3 stC3) jC2a uS3 stC3) :=
    processGroups_cons_eval 3 [] (joinCart inC3 stC3) inC3 0 10 stC3 jC2a uS3 _ _
      (by rfl) (by rfl) rfl
  have hkeys : groupKeys (joinCart inC3 stC3) = [3] := by rfl
  have hpg2 : processGroups (groupKeys (joinCart inC3 stC3)) (joinCart inC3 stC3)
      inC3 0 10 stC3 =
      .ok ([pgTxn 3 inC3 0 10 (joinCart inC3 stC3) jC2a],
           pgStep 3 inC3 0 10 (joinCart inC3 stC3) jC2a uS3 stC3) := by
    rw [hkeys]
    exact hpg
  exact ⟨_, checkout_eval inC3 0 10 stC3 uB2 _ _ (by rfl) (by decide) (by decide)
    (by rfl) (by rfl) (by rfl) hpg2, rfl⟩

/-- **C3 (counterexample).** In a checkout whose single seller group holds
two distinct listings (1 and 2, both of seller 3), the checkout succeeds,
listing 2 is referenced by a validated joined cart item, yet listing 2's
row in the final state still has status `active` — only the group's first
listing is marked `sold`. -/
theorem checkout_group_listings_counterexample :
    ∃ txns st', checkout inC3 0 10 stC3 = .ok (txns, st') ∧
      2 ∈ (joinCart inC3 stC3).map (fun i => i.listing_id) ∧
      st'.listings.find? (fun l => l.id = 2) = some lC3b ∧
      lC3b.status = .active := by
  obtain ⟨st', hev, hlist⟩ := checkoutC3_eval
  refine ⟨_, st', hev, by decide, ?_, rfl⟩
  rw [hlist]
  rfl

/-- Witness for C3 (amended): on the one-seller scenario, the produced
transaction's primary listing is `sold` in the final state. -/
theorem checkout_marks_primary_listing_sold_witness :
    ∃ txns st', checkout inC3 0 10 stC3 = .ok (txns, st') ∧
      ∀ t ∈ txns, ∀ l ∈ st'.listings, l.id = t.listing_id → l.status = .sold := by
  obtain ⟨st', hev, -⟩ := checkoutC3_eval
  exact ⟨_, st', hev, checkout_marks_primary_listing_sold inC3 0 10 stC3 _ st' hev⟩

end Market
